import Mathlib

/-!
# socket.io-redis-emitter-go: message construction and channel addressing

A shallow embedding of `emitter.go`, `broadcast.go` and the two `enum` files.

* Go strings are Lean strings, `fmt.Sprintf` with `%s` verbs is concatenation.
* A Go slice is a list; the nil slice is the empty list.
* A `map[string]interface{}` whose values are all `nil` (the room sets, the
  reserved-event table) is the duplicate-free list of its keys.  The order in
  which `range` visits such a map is not fixed by Go: it is supplied by the
  environment as an arbitrary rearrangement of the keys.
* The pointer receivers `*Emitter` and `*BroadcastOperator` become explicit
  state passing: a method returns the receiver as it is after the call.
* The serializers (`msgpack.Marshal`, `json.Marshal`) and the answer of the
  Redis server to a `PUBLISH` are parameters, collected in `Env`.  The bus is
  the list of publish calls made so far.
-/

set_option autoImplicit false

namespace RedisEmitter

/-! ## enum/packet_type.go, enum/request_type.go -/

def PacketTypeConnect : Int := 0
def PacketTypeDisconnect : Int := 1
def PacketTypeEvent : Int := 2
def PacketTypeAck : Int := 3
def PacketTypeConnectError : Int := 4
def PacketTypeBinaryEvent : Int := 5
def PacketTypeBinaryAck : Int := 6

def RequestTypeSockets : Int := 0
def RequestTypeAllRooms : Int := 1
def RequestTypeRemoteJoin : Int := 2
def RequestTypeRemoteLeave : Int := 3
def RequestTypeRemoteDisconnect : Int := 4
def RequestTypeRemoteFetch : Int := 5
def RequestTypeServerSideEmit : Int := 6

/-! ## Values, errors, the bus -/

/-- The struct `BroadcastFlags` of broadcast.go. -/
structure BroadcastFlags where
  volatile : Bool
  compress : Bool
  deriving DecidableEq, Repr

/-- Go values of type `interface{}` that the emitter builds or is handed:
scalars, `[]string`, `[]interface{}`, a `BroadcastFlags` struct, and maps with
string keys (`map[string]interface{}`, `map[string][]string`) written as the
list of their entries in the order of the map literal. -/
inductive Value where
  | null : Value
  | bool : Bool → Value
  | int : Int → Value
  | float : Float → Value
  | str : String → Value
  | strs : List String → Value
  | flags : BroadcastFlags → Value
  | list : List Value → Value
  | obj : List (String × Value) → Value

/-- A Go `error` value that is not nil, identified by its message. -/
abbrev GoError := String

/-- A serialized message. -/
abbrev Bytes := List Nat

/-- One call of `redisClient.Publish(ctx, channel, message)`. -/
structure PublishCall where
  channel : String
  message : Bytes
  deriving DecidableEq, Repr

/-- The transport as the emitter sees it: the publish calls made so far,
oldest first. -/
abbrev Transport := List PublishCall

/-- An order in which `range` may visit the keys of a map: any rearrangement
of the keys. -/
structure RangeOrder where
  visit : List String → List String
  perm : ∀ keys, (visit keys).Perm keys

/-- What the emitter does not decide itself. `range n` is the order taken by
the `n`-th `range` statement an operation executes. -/
structure Env where
  msgpackMarshal : Value → Except GoError Bytes
  jsonMarshal : Value → Except GoError Bytes
  publishErr : Transport → String → Bytes → Option GoError
  range : Nat → RangeOrder

/-- The call `redisClient.Publish(ctx, channel, message).Err()`: the call is
recorded on the bus and the server's answer is returned (`none` is nil). -/
def Publish (env : Env) (t : Transport) (channel : String) (message : Bytes) :
    Option GoError × Transport :=
  (env.publishErr t channel message, t ++ [⟨channel, message⟩])

/-! ## Maps used as sets -/

/-- A `map[string]interface{}` all of whose values are nil: its keys. -/
structure StringSet where
  keys : List String
  nodup : keys.Nodup

/-- The result of `make(map[string]interface{})`. -/
def StringSet.empty : StringSet := ⟨[], List.nodup_nil⟩

/-- The assignment `m[room] = nil`. -/
def StringSet.set (m : StringSet) (room : String) : StringSet :=
  if h : room ∈ m.keys then m
  else ⟨m.keys ++ [room], List.Nodup.append m.nodup (List.nodup_singleton room)
    (by simpa using h)⟩

/-- The builtin `len(m)`. -/
def StringSet.len (m : StringSet) : Nat := m.keys.length

/-- The function `mapToArray` of broadcast.go. -/
def mapToArray (order : RangeOrder) (m : StringSet) : List String :=
  if m.len > 0 then
    (order.visit m.keys).foldl (fun rooms room => rooms ++ [room]) []
  else []

/-! ## emitter.go: constants and the session -/

def uid : String := "emitter"
def defaultKey : String := "socket.io"
def defaultNsp : String := "/"

structure RedisOptions where
  Address : String
  Password : String
  ReadTimeout : Int
  PoolSize : Int
  deriving DecidableEq, Repr

structure EmitterOptions where
  Redis : RedisOptions
  Key : String
  Nsp : String
  deriving DecidableEq, Repr

/-- The struct `BroadcastOptions` of broadcast.go. -/
structure BroadcastOptions where
  nsp : String
  broadcastChannel : String
  requestChannel : String
  deriving DecidableEq, Repr

/-- Conversion to `int64` (two's complement wrap-around). -/
def wrapInt64 (x : Int) : Int := (x + 2 ^ 63) % 2 ^ 64 - 2 ^ 63

/-- The handle returned by `redis.NewClient`, identified by the options it was
created with; `ReadTimeout` is a `time.Duration`, in nanoseconds. -/
structure RedisClient where
  Addr : String
  Password : String
  ReadTimeout : Int
  PoolSize : Int
  deriving DecidableEq, Repr

structure Emitter where
  opts : EmitterOptions
  redisClient : RedisClient
  broadcastOptions : BroadcastOptions
  deriving DecidableEq, Repr

/-- The function `NewEmitter` of emitter.go. -/
def NewEmitter (opts : EmitterOptions) : Emitter :=
  let redisClient : RedisClient :=
    { Addr := opts.Redis.Address
      Password := opts.Redis.Password
      ReadTimeout := wrapInt64 (wrapInt64 opts.Redis.ReadTimeout * 1000000000)
      PoolSize := opts.Redis.PoolSize }
  let opts := if opts.Key = "" then { opts with Key := defaultKey } else opts
  let opts := if opts.Nsp = "" then { opts with Nsp := defaultNsp } else opts
  let broadcastOptions : BroadcastOptions :=
    { nsp := opts.Nsp
      broadcastChannel := opts.Key ++ "#" ++ opts.Nsp ++ "#"
      requestChannel := opts.Key ++ "-request#" ++ opts.Nsp ++ "#" }
  { opts := opts, redisClient := redisClient, broadcastOptions := broadcastOptions }

/-- The function `strings.HasPrefix`. -/
def HasPrefix (s pre : String) : Bool := pre.data.isPrefixOf s.data

/-- The method `Emitter.Of`: the receiver after the call, and the emitter
returned. -/
def Emitter.Of (e : Emitter) (nsp : String) : Emitter × Emitter :=
  let nsp := if !HasPrefix nsp defaultNsp then defaultNsp ++ nsp else nsp
  let e := { e with opts := { e.opts with Nsp := nsp } }
  (e, NewEmitter e.opts)

/-! ## broadcast.go: the builder -/

/-- The table `ReservedEvents` of broadcast.go: its keys. -/
def ReservedEvents : List String :=
  ["connect", "connect_error", "disconnect", "disconnecting", "newListener", "removeListener"]

structure BroadcastOperator where
  redisClient : RedisClient
  opts : BroadcastOptions
  rooms : StringSet
  exceptRooms : StringSet
  flags : BroadcastFlags

/-- The function `NewBroadcastOperator` of broadcast.go. -/
def NewBroadcastOperator (redisClient : RedisClient) (opts : BroadcastOptions) :
    BroadcastOperator :=
  { redisClient := redisClient
    opts := opts
    rooms := StringSet.empty
    exceptRooms := StringSet.empty
    flags := { volatile := false, compress := false } }

/-- The method `To`: the receiver after the call, which is also the value
returned. -/
def BroadcastOperator.To (b : BroadcastOperator) (rooms : List String) : BroadcastOperator :=
  rooms.foldl (fun b room => { b with rooms := b.rooms.set room }) b

/-- The method `In`. -/
def BroadcastOperator.In (b : BroadcastOperator) (rooms : List String) : BroadcastOperator :=
  b.To rooms

/-- The method `Except`. -/
def BroadcastOperator.Except (b : BroadcastOperator) (rooms : List String) :
    BroadcastOperator :=
  rooms.foldl (fun b room => { b with exceptRooms := b.exceptRooms.set room }) b

/-- The method `Compress`. -/
def BroadcastOperator.Compress (b : BroadcastOperator) (compress : Bool) : BroadcastOperator :=
  { b with flags := { b.flags with compress := compress } }

/-- The method `Volatile`. -/
def BroadcastOperator.Volatile (b : BroadcastOperator) : BroadcastOperator :=
  { b with flags := { b.flags with volatile := true } }

/-- What a terminal operation leaves behind: the values it returns, the
receiver after the call and the bus after the call. -/
structure Outcome (ρ : Type) where
  ret : ρ
  b : BroadcastOperator
  bus : Transport

/-- The method `BroadcastOperator.Emit`; it returns `(bool, error)`. -/
def BroadcastOperator.Emit (b : BroadcastOperator) (env : Env) (t : Transport)
    (event : String) (args : List Value) : Outcome (Bool × Option GoError) :=
  if event ∈ ReservedEvents then
    ⟨(false, some (event ++ " is a reserved event name")), b, t⟩
  else
    let data := [Value.str event] ++ args
    let packet := Value.obj
      [("type", .int PacketTypeEvent), ("data", .list data), ("nsp", .str b.opts.nsp)]
    let rooms := mapToArray (env.range 0) b.rooms
    let opts := Value.obj
      [("rooms", .strs rooms), ("flags", .flags b.flags),
       ("except", .strs (mapToArray (env.range 1) b.exceptRooms))]
    match env.msgpackMarshal (.list [.str uid, packet, opts]) with
    | .error err => ⟨(false, some err), b, t⟩
    | .ok msg =>
      let channel := b.opts.broadcastChannel
      let channel :=
        if h : rooms.length = 1 then channel ++ rooms.get ⟨0, by omega⟩ ++ "#" else channel
      match Publish env t channel msg with
      | (some err, t) => ⟨(false, some err), b, t⟩
      | (none, t) => ⟨(true, none), b, t⟩

/-- The method `SocketsJoin`; it returns an `error`. -/
def BroadcastOperator.SocketsJoin (b : BroadcastOperator) (env : Env) (t : Transport)
    (rooms : List String) : Outcome (Option GoError) :=
  match env.jsonMarshal (.obj
      [("type", .int RequestTypeRemoteJoin),
       ("opts", .obj [("rooms", .strs (mapToArray (env.range 0) b.rooms)),
                      ("except", .strs (mapToArray (env.range 1) b.exceptRooms))]),
       ("rooms", .strs rooms)]) with
  | .error err => ⟨some err, b, t⟩
  | .ok request =>
    match Publish env t b.opts.requestChannel request with
    | (err, t) => ⟨err, b, t⟩

/-- The method `SocketsLeave`; it returns an `error`. -/
def BroadcastOperator.SocketsLeave (b : BroadcastOperator) (env : Env) (t : Transport)
    (rooms : List String) : Outcome (Option GoError) :=
  match env.jsonMarshal (.obj
      [("type", .int RequestTypeRemoteLeave),
       ("opts", .obj [("rooms", .strs (mapToArray (env.range 0) b.rooms)),
                      ("except", .strs (mapToArray (env.range 1) b.exceptRooms))]),
       ("rooms", .strs rooms)]) with
  | .error err => ⟨some err, b, t⟩
  | .ok request =>
    match Publish env t b.opts.requestChannel request with
    | (err, t) => ⟨err, b, t⟩

/-- The method `DisconnectSockets`; it returns an `error`. -/
def BroadcastOperator.DisconnectSockets (b : BroadcastOperator) (env : Env) (t : Transport)
    (close : Bool) : Outcome (Option GoError) :=
  match env.jsonMarshal (.obj
      [("type", .int RequestTypeRemoteDisconnect),
       ("opts", .obj [("rooms", .strs (mapToArray (env.range 0) b.rooms)),
                      ("except", .strs (mapToArray (env.range 1) b.exceptRooms))]),
       ("close", .bool close)]) with
  | .error err => ⟨some err, b, t⟩
  | .ok request =>
    match Publish env t b.opts.requestChannel request with
    | (err, t) => ⟨err, b, t⟩

/-- The method `ServerSideEmit`; it returns an `error`. -/
def BroadcastOperator.ServerSideEmit (b : BroadcastOperator) (env : Env) (t : Transport)
    (args : List Value) : Outcome (Option GoError) :=
  match env.jsonMarshal (.obj
      [("uid", .str uid), ("type", .int RequestTypeServerSideEmit), ("data", .list args)]) with
  | .error err => ⟨some err, b, t⟩
  | .ok request =>
    match Publish env t b.opts.requestChannel request with
    | (err, t) => ⟨err, b, t⟩

/-! ## emitter.go: the session's conveniences -/

/-- The method `Emitter.Emit`. Its body passes the slice `args` on as it is,
without `...`: the builder receives it as one argument. -/
def Emitter.Emit (e : Emitter) (env : Env) (t : Transport) (event : String)
    (args : List Value) : Outcome (Bool × Option GoError) :=
  (NewBroadcastOperator e.redisClient e.broadcastOptions).Emit env t event [Value.list args]

/-- The method `Emitter.To`. -/
def Emitter.To (e : Emitter) (rooms : List String) : BroadcastOperator :=
  (NewBroadcastOperator e.redisClient e.broadcastOptions).To rooms

/-- The method `Emitter.In`. -/
def Emitter.In (e : Emitter) (rooms : List String) : BroadcastOperator :=
  (NewBroadcastOperator e.redisClient e.broadcastOptions).In rooms

/-- The method `Emitter.Except`. -/
def Emitter.Except (e : Emitter) (rooms : List String) : BroadcastOperator :=
  (NewBroadcastOperator e.redisClient e.broadcastOptions).Except rooms

/-- The method `Emitter.Volatile`. -/
def Emitter.Volatile (e : Emitter) : BroadcastOperator :=
  (NewBroadcastOperator e.redisClient e.broadcastOptions).Volatile

/-- The method `Emitter.Compress`. -/
def Emitter.Compress (e : Emitter) (compress : Bool) : BroadcastOperator :=
  (NewBroadcastOperator e.redisClient e.broadcastOptions).Compress compress

/-- The method `Emitter.SocketsJoin`. -/
def Emitter.SocketsJoin (e : Emitter) (env : Env) (t : Transport) (rooms : List String) :
    Outcome (Option GoError) :=
  (NewBroadcastOperator e.redisClient e.broadcastOptions).SocketsJoin env t rooms

/-- The method `Emitter.SocketsLeave`. -/
def Emitter.SocketsLeave (e : Emitter) (env : Env) (t : Transport) (rooms : List String) :
    Outcome (Option GoError) :=
  (NewBroadcastOperator e.redisClient e.broadcastOptions).SocketsLeave env t rooms

/-- The method `Emitter.DisconnectSockets`. -/
def Emitter.DisconnectSockets (e : Emitter) (env : Env) (t : Transport) (close : Bool) :
    Outcome (Option GoError) :=
  (NewBroadcastOperator e.redisClient e.broadcastOptions).DisconnectSockets env t close

/-- The method `Emitter.ServerSideEmit`. -/
def Emitter.ServerSideEmit (e : Emitter) (env : Env) (t : Transport) (args : List Value) :
    Outcome (Option GoError) :=
  (NewBroadcastOperator e.redisClient e.broadcastOptions).ServerSideEmit env t args

/-! ## A concrete environment -/

/-- A serializer that always succeeds and reports only the shape of a broadcast
tuple: the number of entries of the packet's `data`; one byte `0` for any
other value. -/
def shapeMarshal : Value → Except GoError Bytes
  | .list [_, .obj [_, (_, .list data), _], _] => .ok [data.length]
  | _ => .ok [0]

/-- The order that visits the keys as they were inserted. -/
def insertionOrder : RangeOrder := ⟨fun keys => keys, fun keys => List.Perm.refl keys⟩

/-- An environment in which every publish succeeds. -/
def quietEnv : Env :=
  { msgpackMarshal := shapeMarshal
    jsonMarshal := shapeMarshal
    publishErr := fun _ _ _ => none
    range := fun _ => insertionOrder }

/-- The session `NewEmitter(EmitterOptions{})`. -/
def defaultEmitter : Emitter := NewEmitter ⟨⟨"", "", 0, 0⟩, "", ""⟩

/-- A serializer that always succeeds and reports only the kind of a request:
its `type` code, read from the first or second entry of the envelope; one
byte `0` for any other value. -/
def kindMarshal : Value → Except GoError Bytes
  | .obj ((_, .int n) :: _) => .ok [n.toNat]
  | .obj (_ :: (_, .int n) :: _) => .ok [n.toNat]
  | _ => .ok [0]

/-- An environment in which every publish succeeds and requests are
serialized to their kind. -/
def kindEnv : Env :=
  { msgpackMarshal := shapeMarshal
    jsonMarshal := kindMarshal
    publishErr := fun _ _ _ => none
    range := fun _ => insertionOrder }

/-- An environment in which the server refuses every publish. -/
def refusingEnv : Env :=
  { msgpackMarshal := shapeMarshal
    jsonMarshal := shapeMarshal
    publishErr := fun _ _ _ => some "connection refused"
    range := fun _ => insertionOrder }

/-! ## Builders as heap objects

`NewBroadcastOperator` returns a pointer to a new struct holding two new maps,
and every targeting or flag method works through that pointer and returns it.
The heap is the list of the builders allocated so far; an address is a
position in it. -/

/-- A targeting or flag call. -/
inductive Call where
  | To : List String → Call
  | In : List String → Call
  | Except : List String → Call
  | Volatile : Call
  | Compress : Bool → Call

/-- The builder after the call `c` made on it. -/
def BroadcastOperator.call (b : BroadcastOperator) : Call → BroadcastOperator
  | .To rooms => b.To rooms
  | .In rooms => b.In rooms
  | .Except rooms => b.Except rooms
  | .Volatile => b.Volatile
  | .Compress compress => b.Compress compress

/-- The builder that the session's method for the call `c` returns. -/
def Emitter.call (e : Emitter) : Call → BroadcastOperator
  | .To rooms => e.To rooms
  | .In rooms => e.In rooms
  | .Except rooms => e.Except rooms
  | .Volatile => e.Volatile
  | .Compress compress => e.Compress compress

abbrev Heap := List BroadcastOperator

/-- A call made through the pointer `p`: the builder at `p` is updated in
place (the pointer returned is `p` again). -/
def Heap.builderCall (h : Heap) (p : Nat) (c : Call) : Heap :=
  match h[p]? with
  | some b => h.set p (b.call c)
  | none => h

/-- A chain of calls made through the pointer `p`. -/
def Heap.chain (h : Heap) (p : Nat) (calls : List Call) : Heap :=
  calls.foldl (fun h c => h.builderCall p c) h

/-- The allocation `&BroadcastOperator{...}`: the new heap and the address of
the new builder. -/
def Heap.alloc (h : Heap) (b : BroadcastOperator) : Heap × Nat :=
  (h ++ [b], h.length)

/-- A call made on the session: `NewBroadcastOperator` allocates a builder,
the call is made through its pointer, and that pointer is returned. -/
def Heap.sessionCall (h : Heap) (e : Emitter) (c : Call) : Heap × Nat :=
  match Heap.alloc h (NewBroadcastOperator e.redisClient e.broadcastOptions) with
  | (h, p) => (h.builderCall p c, p)

/-! ## What a serializer sees of a struct

`msgpack.Marshal` and `json.Marshal` reach a struct through reflection, and
reflection gives access to exported fields only: a struct is written as the
map of its exported fields. -/

/-- Go's rule for identifiers: a name is exported when it begins with an
upper-case letter. -/
def exported (name : String) : Bool :=
  match name.data with
  | c :: _ => c.isUpper
  | [] => false

/-- The fields of the struct `BroadcastFlags` with their values, in the order
of the declaration (broadcast.go 19-22). -/
def BroadcastFlags.fields (f : BroadcastFlags) : List (String × Value) :=
  [("volatile", .bool f.volatile), ("compress", .bool f.compress)]

mutual
/-- The value as a serializer working by reflection writes it: a struct is the
map of its exported fields, every other value is itself. -/
def Value.wire : Value → Value
  | .flags f => .obj (f.fields.filter (fun kv => exported kv.1))
  | .list xs => .list (Value.wireList xs)
  | .obj kvs => .obj (Value.wireFields kvs)
  | .null => .null
  | .bool b => .bool b
  | .int n => .int n
  | .float x => .float x
  | .str s => .str s
  | .strs ss => .strs ss
/-- The elements of a slice as they are written. -/
def Value.wireList : List Value → List Value
  | [] => []
  | v :: vs => v.wire :: Value.wireList vs
/-- The entries of a map as they are written. -/
def Value.wireFields : List (String × Value) → List (String × Value)
  | [] => []
  | (k, v) :: kvs => (k, v.wire) :: Value.wireFields kvs
end

/-- The environment whose `msgpack.Marshal` is the byte encoder `enc` applied
to what reflection shows of the value. -/
def Env.reflecting (env : Env) (enc : Value → Except GoError Bytes) : Env :=
  { env with msgpackMarshal := fun v => enc v.wire }

/-- An encoder that always succeeds and reports only the `flags` entry of a
broadcast tuple: `[1, volatile, compress]` for a struct shown with its two
fields, `[2, n]` for a map of `n` entries; one byte `0` for any other value. -/
def flagsMarshal : Value → Except GoError Bytes
  | .list [_, _, .obj [_, (_, .flags f), _]] => .ok [1, f.volatile.toNat, f.compress.toNat]
  | .list [_, _, .obj [_, (_, .obj fields), _]] => .ok [2, fields.length]
  | _ => .ok [0]

/-! ## The wire format of a broadcast, as described -/

/-- The wire format of a broadcast, in the words of its description: the
3-tuple `[uid, packet, opts]` with `packet = {type, data: [event, ...args], nsp}`
and `opts = {rooms, flags, except}`, for the sender `emitter` and the packet
kind 2. -/
def broadcastTuple (event : String) (args : List Value) (nsp : String) (rooms : List String)
    (flags : BroadcastFlags) (exceptRooms : List String) : Value :=
  .list [.str "emitter",
    .obj [("type", .int 2), ("data", .list (.str event :: args)), ("nsp", .str nsp)],
    .obj [("rooms", .strs rooms), ("flags", .flags flags), ("except", .strs exceptRooms)]]

/-- The channel of a broadcast, in the words of its description: the broadcast
channel, specialised to `<broadcastChannel><room>#` when there is exactly one
target room. -/
def broadcastChannelFor (broadcastChannel : String) (rooms : List String) : String :=
  match rooms with
  | [room] => broadcastChannel ++ room ++ "#"
  | _ => broadcastChannel

/-! ## Lemmas on the room sets -/

theorem foldl_append_singleton (l init : List String) :
    l.foldl (fun rooms room => rooms ++ [room]) init = init ++ l := by
  induction l generalizing init with
  | nil => simp
  | cons x xs ih => simp [ih]

theorem mapToArray_eq_visit (order : RangeOrder) (m : StringSet) :
    mapToArray order m = order.visit m.keys := by
  unfold mapToArray StringSet.len
  split
  · simp [foldl_append_singleton]
  · next h =>
    have hk : m.keys = [] := List.length_eq_zero.mp (by omega)
    have hp := order.perm m.keys
    rw [hk] at hp ⊢
    exact (List.Perm.eq_nil hp).symm

theorem mapToArray_perm (order : RangeOrder) (m : StringSet) :
    (mapToArray order m).Perm m.keys := by
  rw [mapToArray_eq_visit]; exact order.perm m.keys

theorem mapToArray_length (order : RangeOrder) (m : StringSet) :
    (mapToArray order m).length = m.keys.length :=
  (mapToArray_perm order m).length_eq

theorem mapToArray_singleton (order : RangeOrder) (m : StringSet) (r : String)
    (h : m.keys = [r]) : mapToArray order m = [r] := by
  have hp := mapToArray_perm order m
  rw [h] at hp
  exact List.perm_singleton.mp hp

/-! ## Reserved event names -/

/-- C1. For each of the six reserved event names, whatever the builder, the
arguments, the environment and the bus, `Emit` returns `false` with the error
`<event> is a reserved event name`, makes no publish call (the bus is as it
was) and leaves the builder as it was. -/
theorem emit_reserved_rejected (b : BroadcastOperator) (env : Env) (t : Transport)
    (event : String) (args : List Value)
    (hev : event ∈ ["connect", "connect_error", "disconnect", "disconnecting",
      "newListener", "removeListener"]) :
    (b.Emit env t event args).ret.1 = false ∧
    (b.Emit env t event args).ret.2 = some (event ++ " is a reserved event name") ∧
    (b.Emit env t event args).ret.2 ≠ none ∧
    (b.Emit env t event args).bus = t := by
  have h : event ∈ ReservedEvents := hev
  simp [BroadcastOperator.Emit, h]

/-- The reserved name `disconnect` is rejected on a builder that targets a
room, on a bus that already carries a call: the bus still carries that call
only. -/
theorem emit_reserved_rejected_witness :
    "disconnect" ∈ ["connect", "connect_error", "disconnect", "disconnecting",
      "newListener", "removeListener"] ∧
    ((defaultEmitter.To ["r1"]).Emit quietEnv [⟨"c", [1]⟩] "disconnect" [.int 1]).ret.1 = false ∧
    ((defaultEmitter.To ["r1"]).Emit quietEnv [⟨"c", [1]⟩] "disconnect" [.int 1]).ret.2
      = some ("disconnect" ++ " is a reserved event name") ∧
    ((defaultEmitter.To ["r1"]).Emit quietEnv [⟨"c", [1]⟩] "disconnect" [.int 1]).ret.2 ≠ none ∧
    ((defaultEmitter.To ["r1"]).Emit quietEnv [⟨"c", [1]⟩] "disconnect" [.int 1]).bus
      = [⟨"c", [1]⟩] :=
  ⟨by decide, emit_reserved_rejected _ quietEnv [⟨"c", [1]⟩] "disconnect" [.int 1] (by decide)⟩

/-! ## Runs of `Emit` -/

theorem fastPath_eq (broadcastChannel : String) (rooms : List String) :
    (if h : rooms.length = 1 then broadcastChannel ++ rooms.get ⟨0, by omega⟩ ++ "#"
      else broadcastChannel) = broadcastChannelFor broadcastChannel rooms := by
  match rooms with
  | [] => simp [broadcastChannelFor]
  | [r] => simp [broadcastChannelFor]
  | _ :: _ :: _ => simp [broadcastChannelFor]

/-- A run of `Emit` on an event name that is not reserved, when the serializer
accepts the tuple: one publish call, whose answer decides the result. -/
theorem emit_run (b : BroadcastOperator) (env : Env) (t : Transport) (event : String)
    (args : List Value) (msg : Bytes) (hev : event ∉ ReservedEvents)
    (hser : env.msgpackMarshal (broadcastTuple event args b.opts.nsp
      (mapToArray (env.range 0) b.rooms) b.flags (mapToArray (env.range 1) b.exceptRooms))
      = .ok msg) :
    b.Emit env t event args =
      ⟨(match env.publishErr t
            (broadcastChannelFor b.opts.broadcastChannel (mapToArray (env.range 0) b.rooms))
            msg with
        | some err => (false, some err)
        | none => (true, none)),
       b,
       t ++ [⟨broadcastChannelFor b.opts.broadcastChannel (mapToArray (env.range 0) b.rooms),
              msg⟩]⟩ := by
  unfold broadcastTuple at hser
  unfold BroadcastOperator.Emit
  simp only [hev, if_false, uid, PacketTypeEvent, List.singleton_append, hser, Publish,
    fastPath_eq]
  split <;> simp_all

/-- C2. For a non-reserved event whose tuple the serializer accepts, `Emit`
publishes on `broadcastChannel ++ r ++ "#"` when the target-room set is exactly
`{r}`, and on the unscoped `broadcastChannel` when the target-room set is empty
or holds two or more rooms. -/
theorem emit_channel_selection (b : BroadcastOperator) (env : Env) (t : Transport)
    (event : String) (args : List Value) (msg : Bytes) (hev : event ∉ ReservedEvents)
    (hser : env.msgpackMarshal (broadcastTuple event args b.opts.nsp
      (mapToArray (env.range 0) b.rooms) b.flags (mapToArray (env.range 1) b.exceptRooms))
      = .ok msg) :
    (∀ r, b.rooms.keys = [r] →
      (b.Emit env t event args).bus = t ++ [⟨b.opts.broadcastChannel ++ r ++ "#", msg⟩]) ∧
    (b.rooms.keys = [] ∨ 2 ≤ b.rooms.keys.length →
      (b.Emit env t event args).bus = t ++ [⟨b.opts.broadcastChannel, msg⟩]) := by
  rw [emit_run b env t event args msg hev hser]
  refine ⟨fun r hr => ?_, fun h => ?_⟩
  · simp [mapToArray_singleton _ _ r hr, broadcastChannelFor]
  · have hlen := mapToArray_length (env.range 0) b.rooms
    have hne : (mapToArray (env.range 0) b.rooms).length ≠ 1 := by
      rcases h with h | h
      · rw [hlen, h]; decide
      · omega
    revert hne
    generalize mapToArray (env.range 0) b.rooms = rooms
    intro hne
    match rooms, hne with
    | [], _ => simp [broadcastChannelFor]
    | [_], hne => exact absurd rfl hne
    | _ :: _ :: _, _ => simp [broadcastChannelFor]

/-- On the default session: `to("r1").emit` goes to `socket.io#/#r1#`, while
`to("r1","r2").emit` and an `emit` without target rooms go to `socket.io#/#`. -/
theorem emit_channel_selection_witness :
    ((defaultEmitter.To ["r1"]).Emit quietEnv [] "news" [.int 1]).bus
      = [⟨"socket.io#/#r1#", [2]⟩] ∧
    ((defaultEmitter.To ["r1", "r2"]).Emit quietEnv [] "news" [.int 1]).bus
      = [⟨"socket.io#/#", [2]⟩] ∧
    ((defaultEmitter.To []).Emit quietEnv [] "news" [.int 1]).bus
      = [⟨"socket.io#/#", [2]⟩] :=
  ⟨(emit_channel_selection (defaultEmitter.To ["r1"]) quietEnv [] "news" [.int 1] [2]
      (by decide) rfl).1 "r1" (by decide),
   (emit_channel_selection (defaultEmitter.To ["r1", "r2"]) quietEnv [] "news" [.int 1] [2]
      (by decide) rfl).2 (Or.inr (by decide)),
   (emit_channel_selection (defaultEmitter.To []) quietEnv [] "news" [.int 1] [2]
      (by decide) rfl).2 (Or.inl (by decide))⟩

/-! ## The session -/

/-- C3. On the default session, with a serializer that reports the number of
entries of the packet's `data`: `Emitter.Emit("news", 1, 2)` publishes a packet
with two entries (the event name and the slice `[1, 2]` as one value, since the
session runs the builder's `Emit` on the single argument `args`), while the
builder's `Emit("news", 1, 2)` publishes one with the three entries
`"news", 1, 2`. -/
theorem session_emit_nests_args :
    (defaultEmitter.Emit quietEnv [] "news" [.int 1, .int 2]).bus
      = [⟨"socket.io#/#", [2]⟩] ∧
    ((NewBroadcastOperator defaultEmitter.redisClient defaultEmitter.broadcastOptions).Emit
        quietEnv [] "news" [.int 1, .int 2]).bus
      = [⟨"socket.io#/#", [3]⟩] ∧
    (defaultEmitter.Emit quietEnv [] "news" [.int 1, .int 2]).bus
      = ((NewBroadcastOperator defaultEmitter.redisClient defaultEmitter.broadcastOptions).Emit
          quietEnv [] "news" [.list [.int 1, .int 2]]).bus := by
  refine ⟨by decide, by decide, rfl⟩

theorem newEmitter_broadcastOptions (opts : EmitterOptions) :
    (NewEmitter opts).broadcastOptions
      = { nsp := if opts.Nsp = "" then "/" else opts.Nsp
          broadcastChannel := (if opts.Key = "" then "socket.io" else opts.Key) ++ "#"
            ++ (if opts.Nsp = "" then "/" else opts.Nsp) ++ "#"
          requestChannel := (if opts.Key = "" then "socket.io" else opts.Key) ++ "-request#"
            ++ (if opts.Nsp = "" then "/" else opts.Nsp) ++ "#" } := by
  unfold NewEmitter
  by_cases hk : opts.Key = "" <;> by_cases hn : opts.Nsp = "" <;>
    simp [hk, hn, defaultKey, defaultNsp]

/-- C4. The channel names `NewEmitter` derives from the key `k` and the
namespace `n`: `k' ++ "#" ++ n' ++ "#"` for broadcasts and
`k' ++ "-request#" ++ n' ++ "#"` for requests, where `k'` is `k`, or
`socket.io` when `k` is empty, and `n'` is `n`, or `/` when `n` is empty; the
session's namespace is `n'`. -/
theorem newEmitter_channels (opts : EmitterOptions) :
    (NewEmitter opts).broadcastOptions.broadcastChannel
      = (if opts.Key = "" then "socket.io" else opts.Key) ++ "#"
          ++ (if opts.Nsp = "" then "/" else opts.Nsp) ++ "#" ∧
    (NewEmitter opts).broadcastOptions.requestChannel
      = (if opts.Key = "" then "socket.io" else opts.Key) ++ "-request#"
          ++ (if opts.Nsp = "" then "/" else opts.Nsp) ++ "#" ∧
    (NewEmitter opts).broadcastOptions.nsp = (if opts.Nsp = "" then "/" else opts.Nsp) := by
  rw [newEmitter_broadcastOptions]
  exact ⟨rfl, rfl, rfl⟩

theorem hasPrefix_slash_append (q : String) : HasPrefix ("/" ++ q) defaultNsp = true := by
  have h : defaultNsp.data = ['/'] := rfl
  simp [HasPrefix, h, String.data_append, List.isPrefixOf]

theorem not_hasPrefix_slash (p : String) (hp : ∀ q, p ≠ "/" ++ q) :
    HasPrefix p defaultNsp = false := by
  have h : defaultNsp.data = ['/'] := rfl
  cases hb : HasPrefix p defaultNsp with
  | false => rfl
  | true =>
    exfalso
    unfold HasPrefix at hb
    rw [h] at hb
    match hd : p.data, hb with
    | [], hb => simp [List.isPrefixOf] at hb
    | c :: cs, hb =>
      simp [List.isPrefixOf] at hb
      apply hp ⟨cs⟩
      apply String.ext
      rw [hd, String.data_append, ← hb]
      rfl

theorem of_slash_path (e : Emitter) (q : String) :
    e.Of ("/" ++ q)
      = ({ e with opts := { e.opts with Nsp := "/" ++ q } },
         NewEmitter { e.opts with Nsp := "/" ++ q }) := by
  simp [Emitter.Of, hasPrefix_slash_append]

theorem of_bare_path (e : Emitter) (p : String) (hp : ∀ q, p ≠ "/" ++ q) :
    e.Of p
      = ({ e with opts := { e.opts with Nsp := "/" ++ p } },
         NewEmitter { e.opts with Nsp := "/" ++ p }) := by
  have h : HasPrefix p "/" = false := not_hasPrefix_slash p hp
  simp [Emitter.Of, h, defaultNsp]

theorem slash_append_ne_empty (q : String) : "/" ++ q ≠ "" := by
  intro h
  have := congrArg String.data h
  rw [String.data_append] at this
  exact List.cons_ne_nil _ _ this

/-- C5. For a path `p` that does not start with `/`, `e.Of(p)` and
`e.Of("/" ++ p)` return the same session, called on the same `e` or one after
the other: namespace `/p`, broadcast channel `k#/p#`, request channel
`k-request#/p#` for the key `k` of `e` (`socket.io` when it is empty). A path
`/q` that already starts with `/` is the namespace as it is. -/
theorem of_slash_insensitive (e : Emitter) (p : String) (hp : ∀ q, p ≠ "/" ++ q) :
    (e.Of p).2.broadcastOptions.nsp = (e.Of ("/" ++ p)).2.broadcastOptions.nsp ∧
    (e.Of p).2.broadcastOptions.broadcastChannel
      = (e.Of ("/" ++ p)).2.broadcastOptions.broadcastChannel ∧
    (e.Of p).2.broadcastOptions.requestChannel
      = (e.Of ("/" ++ p)).2.broadcastOptions.requestChannel ∧
    (e.Of p).2 = (e.Of ("/" ++ p)).2 ∧
    ((e.Of p).1.Of ("/" ++ p)).2 = (e.Of p).2 ∧
    (e.Of p).2.broadcastOptions
      = { nsp := "/" ++ p
          broadcastChannel :=
            (if e.opts.Key = "" then "socket.io" else e.opts.Key) ++ "#" ++ ("/" ++ p) ++ "#"
          requestChannel :=
            (if e.opts.Key = "" then "socket.io" else e.opts.Key) ++ "-request#"
              ++ ("/" ++ p) ++ "#" } ∧
    (∀ q, (e.Of ("/" ++ q)).2.broadcastOptions.nsp = "/" ++ q) := by
  have h2 : (e.Of p).2 = (e.Of ("/" ++ p)).2 := by
    rw [of_bare_path e p hp, of_slash_path e p]
  refine ⟨by rw [h2], by rw [h2], by rw [h2], h2, ?_, ?_, ?_⟩
  · rw [of_slash_path, of_bare_path e p hp]
  · rw [of_bare_path e p hp]
    simp [newEmitter_broadcastOptions, slash_append_ne_empty]
  · intro q
    rw [of_slash_path]
    simp [newEmitter_broadcastOptions, slash_append_ne_empty]

/-- On the default session, `of("chat")` and `of("/chat")` both give the
namespace `/chat` with the channels `socket.io#/chat#` and
`socket.io-request#/chat#`. -/
theorem of_slash_insensitive_witness :
    (∀ q, "chat" ≠ "/" ++ q) ∧
    (defaultEmitter.Of "chat").2 = (defaultEmitter.Of ("/" ++ "chat")).2 ∧
    (defaultEmitter.Of "chat").2.broadcastOptions
      = ⟨"/chat", "socket.io#/chat#", "socket.io-request#/chat#"⟩ :=
  have hchat : ∀ q, "chat" ≠ "/" ++ q := fun q h => by
    have h2 := congrArg String.data h
    rw [String.data_append] at h2
    exact absurd h2 (by simp)
  ⟨hchat, (of_slash_insensitive defaultEmitter "chat" hchat).2.2.2.1,
    ((of_slash_insensitive defaultEmitter "chat" hchat).2.2.2.2.2.1).trans (by decide)⟩

/-- C6. On the default session `e` (namespace `/`), the call `e.Of("chat")`
writes `/chat` into the namespace path of `e`'s own configuration: after the
call `e` differs from what it was, and its configured namespace `/chat`
disagrees with its derived namespace `/` and its channels. -/
theorem of_overwrites_receiver_namespace :
    defaultEmitter.opts.Nsp = "/" ∧
    (defaultEmitter.Of "chat").1.opts.Nsp = "/chat" ∧
    (defaultEmitter.Of "chat").1 ≠ defaultEmitter ∧
    (defaultEmitter.Of "chat").1.broadcastOptions
      = ⟨"/", "socket.io#/#", "socket.io-request#/#"⟩ := by
  decide

/-! ## The published tuple -/

/-- For a non-reserved event, the value `Emit` hands to the serializer is
the 3-tuple `["emitter", packet, opts]` with
`packet = {type: 2, data: [event] ++ args, nsp: the builder's namespace}` and
`opts = {rooms, flags: the builder's flags, except}`, where `rooms` lists the
target rooms and `except` the excluded rooms, each once: what the serializer
returns for this tuple is the message of the one publish call, and an error
of the serializer on this tuple is returned without a publish call. -/
theorem emit_serializes_tuple (b : BroadcastOperator) (env : Env) (t : Transport)
    (event : String) (args : List Value) (rooms exceptRooms : List String)
    (hev : event ∉ ReservedEvents)
    (hrooms : rooms = mapToArray (env.range 0) b.rooms)
    (hexcept : exceptRooms = mapToArray (env.range 1) b.exceptRooms) :
    rooms.Perm b.rooms.keys ∧ exceptRooms.Perm b.exceptRooms.keys ∧
    (∀ msg,
      env.msgpackMarshal (.list [.str "emitter",
        .obj [("type", .int 2), ("data", .list ([.str event] ++ args)),
              ("nsp", .str b.opts.nsp)],
        .obj [("rooms", .strs rooms), ("flags", .flags b.flags),
              ("except", .strs exceptRooms)]]) = .ok msg →
      ∃ channel, (b.Emit env t event args).bus = t ++ [⟨channel, msg⟩]) ∧
    (∀ err,
      env.msgpackMarshal (.list [.str "emitter",
        .obj [("type", .int 2), ("data", .list ([.str event] ++ args)),
              ("nsp", .str b.opts.nsp)],
        .obj [("rooms", .strs rooms), ("flags", .flags b.flags),
              ("except", .strs exceptRooms)]]) = .error err →
      (b.Emit env t event args).bus = t ∧ (b.Emit env t event args).ret = (false, some err)) := by
  subst hrooms hexcept
  refine ⟨mapToArray_perm _ _, mapToArray_perm _ _, fun msg hser => ?_, fun err hser => ?_⟩
  · exact ⟨_, by rw [emit_run b env t event args msg hev hser]⟩
  · simp only [List.singleton_append] at hser
    unfold BroadcastOperator.Emit
    simp only [hev, if_false, uid, PacketTypeEvent, List.singleton_append, hser]
    simp

/-- The builder `to("r1").except("r2").volatile()` of the default session,
emitting `news` with the arguments `1, "x"`: the tuple carries the rooms
`["r1"]`, the excluded rooms `["r2"]` and three data entries. -/
theorem emit_serializes_tuple_witness :
    "news" ∉ ReservedEvents ∧
    ["r1"] = mapToArray (quietEnv.range 0)
      (((defaultEmitter.To ["r1"]).Except ["r2"]).Volatile).rooms ∧
    ["r2"] = mapToArray (quietEnv.range 1)
      (((defaultEmitter.To ["r1"]).Except ["r2"]).Volatile).exceptRooms ∧
    ∃ channel,
      ((((defaultEmitter.To ["r1"]).Except ["r2"]).Volatile).Emit quietEnv [] "news"
        [.int 1, .str "x"]).bus = [] ++ [⟨channel, [3]⟩] :=
  ⟨by decide, by decide, by decide,
   (emit_serializes_tuple (((defaultEmitter.To ["r1"]).Except ["r2"]).Volatile) quietEnv []
      "news" [.int 1, .str "x"] ["r1"] ["r2"] (by decide) (by decide) (by decide)).2.2.1
      [3] rfl⟩

/-! ## Accumulation of rooms -/

theorem mem_set_keys (m : StringSet) (room r : String) :
    r ∈ (m.set room).keys ↔ r ∈ m.keys ∨ r = room := by
  unfold StringSet.set
  split
  · next h =>
    constructor
    · exact Or.inl
    · rintro (h1 | h1)
      · exact h1
      · exact h1 ▸ h
  · simp

theorem to_rooms_mem (rooms : List String) (b : BroadcastOperator) (r : String) :
    r ∈ (b.To rooms).rooms.keys ↔ r ∈ b.rooms.keys ∨ r ∈ rooms := by
  unfold BroadcastOperator.To
  induction rooms generalizing b with
  | nil => simp
  | cons x xs ih =>
    rw [List.foldl_cons, ih]
    simp only [mem_set_keys, List.mem_cons]
    tauto

theorem to_frame (rooms : List String) (b : BroadcastOperator) :
    (b.To rooms).exceptRooms = b.exceptRooms ∧ (b.To rooms).flags = b.flags ∧
    (b.To rooms).opts = b.opts ∧ (b.To rooms).redisClient = b.redisClient := by
  unfold BroadcastOperator.To
  induction rooms generalizing b with
  | nil => simp
  | cons x xs ih => rw [List.foldl_cons]; exact ih _

theorem except_rooms_mem (rooms : List String) (b : BroadcastOperator) (r : String) :
    r ∈ (b.Except rooms).exceptRooms.keys ↔ r ∈ b.exceptRooms.keys ∨ r ∈ rooms := by
  unfold BroadcastOperator.Except
  induction rooms generalizing b with
  | nil => simp
  | cons x xs ih =>
    rw [List.foldl_cons, ih]
    simp only [mem_set_keys, List.mem_cons]
    tauto

theorem except_frame (rooms : List String) (b : BroadcastOperator) :
    (b.Except rooms).rooms = b.rooms ∧ (b.Except rooms).flags = b.flags ∧
    (b.Except rooms).opts = b.opts ∧ (b.Except rooms).redisClient = b.redisClient := by
  unfold BroadcastOperator.Except
  induction rooms generalizing b with
  | nil => simp
  | cons x xs ih => rw [List.foldl_cons]; exact ih _

theorem to_calls_mem (calls : List (List String)) (b : BroadcastOperator) (r : String) :
    r ∈ (calls.foldl BroadcastOperator.To b).rooms.keys
      ↔ r ∈ b.rooms.keys ∨ ∃ rooms ∈ calls, r ∈ rooms := by
  induction calls generalizing b with
  | nil => simp
  | cons c cs ih =>
    rw [List.foldl_cons, ih, to_rooms_mem]
    simp only [List.mem_cons, exists_eq_or_imp]
    tauto

theorem except_calls_mem (calls : List (List String)) (b : BroadcastOperator) (r : String) :
    r ∈ (calls.foldl BroadcastOperator.Except b).exceptRooms.keys
      ↔ r ∈ b.exceptRooms.keys ∨ ∃ rooms ∈ calls, r ∈ rooms := by
  induction calls generalizing b with
  | nil => simp
  | cons c cs ih =>
    rw [List.foldl_cons, ih, except_rooms_mem]
    simp only [List.mem_cons, exists_eq_or_imp]
    tauto

theorem mapToArray_count (order : RangeOrder) (m : StringSet) (r : String) :
    (mapToArray order m).count r = if r ∈ m.keys then 1 else 0 := by
  rw [(mapToArray_perm order m).count_eq r]
  exact List.count_eq_of_nodup m.nodup

/-- C8. `To` and `Except` accumulate without duplication. After any sequence
of `To` calls on a builder, the target set holds exactly the rooms it held
before and the rooms passed in one of the calls (on a fresh builder: exactly
the rooms passed), without repetition, and the `rooms` list built for an
envelope, whatever the order of iteration, holds each of them exactly once and
nothing else; the same for `Except` and the excluded set. In particular
`to("r1").to("r1")` on a fresh builder gives a target set of size 1. -/
theorem to_except_accumulate (b : BroadcastOperator) (calls : List (List String))
    (order : RangeOrder) (redisClient : RedisClient) (opts : BroadcastOptions) :
    (∀ r, r ∈ (calls.foldl BroadcastOperator.To b).rooms.keys
      ↔ r ∈ b.rooms.keys ∨ ∃ rooms ∈ calls, r ∈ rooms) ∧
    (∀ r, r ∈ (calls.foldl BroadcastOperator.To
        (NewBroadcastOperator redisClient opts)).rooms.keys ↔ ∃ rooms ∈ calls, r ∈ rooms) ∧
    (calls.foldl BroadcastOperator.To b).rooms.keys.Nodup ∧
    (∀ r, (mapToArray order (calls.foldl BroadcastOperator.To b).rooms).count r
      = if r ∈ b.rooms.keys ∨ ∃ rooms ∈ calls, r ∈ rooms then 1 else 0) ∧
    (∀ r, r ∈ (calls.foldl BroadcastOperator.Except b).exceptRooms.keys
      ↔ r ∈ b.exceptRooms.keys ∨ ∃ rooms ∈ calls, r ∈ rooms) ∧
    (∀ r, r ∈ (calls.foldl BroadcastOperator.Except
        (NewBroadcastOperator redisClient opts)).exceptRooms.keys
      ↔ ∃ rooms ∈ calls, r ∈ rooms) ∧
    (calls.foldl BroadcastOperator.Except b).exceptRooms.keys.Nodup ∧
    (∀ r, (mapToArray order (calls.foldl BroadcastOperator.Except b).exceptRooms).count r
      = if r ∈ b.exceptRooms.keys ∨ ∃ rooms ∈ calls, r ∈ rooms then 1 else 0) ∧
    (((NewBroadcastOperator redisClient opts).To ["r1"]).To ["r1"]).rooms.len = 1 ∧
    (((NewBroadcastOperator redisClient opts).Except ["r1"]).Except ["r1"]).exceptRooms.len
      = 1 := by
  refine ⟨to_calls_mem calls b, fun r => ?_, StringSet.nodup _, fun r => ?_,
    except_calls_mem calls b, fun r => ?_, StringSet.nodup _, fun r => ?_, rfl, rfl⟩
  · rw [to_calls_mem]; simp [NewBroadcastOperator, StringSet.empty]
  · rw [mapToArray_count]; simp only [to_calls_mem]
  · rw [except_calls_mem]; simp [NewBroadcastOperator, StringSet.empty]
  · rw [mapToArray_count]; simp only [except_calls_mem]

/-! ## Flags -/

theorem mapToArray_empty (order : RangeOrder) : mapToArray order StringSet.empty = [] := rfl

/-- On a fresh builder, `Volatile()` then `Compress(true)` then `Emit` of a
non-reserved event hands the serializer the tuple whose `flags` entry is the
struct `{volatile: true, compress: true}`; `Emit` on a fresh builder, or on a
fresh builder after any `To` and `Except` calls, hands it the tuple whose
`flags` entry is the struct `{volatile: false, compress: false}`. -/
theorem flags_in_envelope (redisClient : RedisClient) (opts : BroadcastOptions) (env : Env)
    (t : Transport) (event : String) (args : List Value) (msg : Bytes)
    (hev : event ∉ ReservedEvents) :
    (env.msgpackMarshal (broadcastTuple event args opts.nsp [] ⟨true, true⟩ []) = .ok msg →
      ((((NewBroadcastOperator redisClient opts).Volatile).Compress true).Emit
        env t event args).bus = t ++ [⟨opts.broadcastChannel, msg⟩]) ∧
    (env.msgpackMarshal (broadcastTuple event args opts.nsp [] ⟨false, false⟩ []) = .ok msg →
      ((NewBroadcastOperator redisClient opts).Emit env t event args).bus
        = t ++ [⟨opts.broadcastChannel, msg⟩]) ∧
    (∀ rooms exceptRooms,
      env.msgpackMarshal (broadcastTuple event args opts.nsp
        (mapToArray (env.range 0)
          (((NewBroadcastOperator redisClient opts).To rooms).Except exceptRooms).rooms)
        ⟨false, false⟩
        (mapToArray (env.range 1)
          (((NewBroadcastOperator redisClient opts).To rooms).Except exceptRooms).exceptRooms))
        = .ok msg →
      ∃ channel,
        ((((NewBroadcastOperator redisClient opts).To rooms).Except exceptRooms).Emit
          env t event args).bus = t ++ [⟨channel, msg⟩]) := by
  refine ⟨fun hser => ?_, fun hser => ?_, fun rooms exceptRooms hser => ?_⟩
  · rw [emit_run _ env t event args msg hev (by exact hser)]
    rfl
  · rw [emit_run _ env t event args msg hev (by exact hser)]
    rfl
  · have hf : (((NewBroadcastOperator redisClient opts).To rooms).Except exceptRooms).flags
        = ⟨false, false⟩ := by
      rw [(except_frame _ _).2.1, (to_frame _ _).2.1]; rfl
    have ho : (((NewBroadcastOperator redisClient opts).To rooms).Except exceptRooms).opts
        = opts := by
      rw [(except_frame _ _).2.2.1, (to_frame _ _).2.2.1]; rfl
    rw [← hf] at hser
    rw [show opts.nsp
      = (((NewBroadcastOperator redisClient opts).To rooms).Except exceptRooms).opts.nsp
      from by rw [ho]] at hser
    exact ⟨_, by rw [emit_run _ env t event args msg hev hser]⟩

/-- On the default session, `volatile().compress(true).emit("news", 1)` and
`emit("news", 1)` on a fresh builder each publish one message on
`socket.io#/#`. -/
theorem flags_in_envelope_witness :
    "news" ∉ ReservedEvents ∧
    ((defaultEmitter.Volatile.Compress true).Emit quietEnv [] "news" [.int 1]).bus
      = [] ++ [⟨"socket.io#/#", [2]⟩] ∧
    ((NewBroadcastOperator defaultEmitter.redisClient defaultEmitter.broadcastOptions).Emit
        quietEnv [] "news" [.int 1]).bus
      = [] ++ [⟨"socket.io#/#", [2]⟩] :=
  ⟨by decide,
   (flags_in_envelope defaultEmitter.redisClient defaultEmitter.broadcastOptions quietEnv []
      "news" [.int 1] [2] (by decide)).1 rfl,
   (flags_in_envelope defaultEmitter.redisClient defaultEmitter.broadcastOptions quietEnv []
      "news" [.int 1] [2] (by decide)).2.1 rfl⟩

/-! ## Administrative requests -/

/-- C10. `SocketsJoin(rs...)`, when the serializer accepts the envelope
`{type: 2, opts: {rooms, except}, rooms: rs}`, in which `rooms` lists the
builder's target rooms and `except` its excluded rooms, makes exactly one
publish call, on the request channel, with that envelope as message, and
returns the answer of that call; `rs` is carried in the order given. A
builder whose target set is `{x}` sends the filter rooms `[x]`. -/
theorem socketsJoin_request (b : BroadcastOperator) (env : Env) (t : Transport)
    (rs : List String) (rooms exceptRooms : List String) (request : Bytes)
    (hrooms : rooms = mapToArray (env.range 0) b.rooms)
    (hexcept : exceptRooms = mapToArray (env.range 1) b.exceptRooms)
    (hser : env.jsonMarshal (.obj
      [("type", .int 2),
       ("opts", .obj [("rooms", .strs rooms), ("except", .strs exceptRooms)]),
       ("rooms", .strs rs)]) = .ok request) :
    (b.SocketsJoin env t rs).bus = t ++ [⟨b.opts.requestChannel, request⟩] ∧
    (b.SocketsJoin env t rs).ret = env.publishErr t b.opts.requestChannel request ∧
    rooms.Perm b.rooms.keys ∧ exceptRooms.Perm b.exceptRooms.keys ∧
    (∀ x, b.rooms.keys = [x] → rooms = [x]) := by
  subst hrooms hexcept
  refine ⟨?_, ?_, mapToArray_perm _ _, mapToArray_perm _ _,
    fun x hx => mapToArray_singleton _ _ x hx⟩
  · simp [BroadcastOperator.SocketsJoin, RequestTypeRemoteJoin, hser, Publish]
  · simp [BroadcastOperator.SocketsJoin, RequestTypeRemoteJoin, hser, Publish]

/-- On the default session, `to("x").socketsJoin("a", "b")` sends one request
on `socket.io-request#/#` with the filter rooms `["x"]`, no excluded rooms and
the destination rooms `["a", "b"]`. -/
theorem socketsJoin_request_witness :
    ["x"] = mapToArray (quietEnv.range 0) (defaultEmitter.To ["x"]).rooms ∧
    [] = mapToArray (quietEnv.range 1) (defaultEmitter.To ["x"]).exceptRooms ∧
    quietEnv.jsonMarshal (.obj
      [("type", .int 2),
       ("opts", .obj [("rooms", .strs ["x"]), ("except", .strs [])]),
       ("rooms", .strs ["a", "b"])]) = .ok [0] ∧
    ((defaultEmitter.To ["x"]).SocketsJoin quietEnv [] ["a", "b"]).bus
      = [] ++ [⟨(defaultEmitter.To ["x"]).opts.requestChannel, [0]⟩] ∧
    (defaultEmitter.To ["x"]).opts.requestChannel = "socket.io-request#/#" :=
  ⟨by decide, by decide, rfl,
   (socketsJoin_request (defaultEmitter.To ["x"]) quietEnv [] ["a", "b"] ["x"] [] [0]
      (by decide) (by decide) rfl).1,
   by decide⟩

/-! ## Runs of the terminal operations -/

theorem emit_cases (b : BroadcastOperator) (env : Env) (t : Transport) (event : String)
    (args : List Value) :
    (∃ err, b.Emit env t event args = ⟨(false, some err), b, t⟩) ∨
    (∃ msg, b.Emit env t event args =
      ⟨(match env.publishErr t
            (broadcastChannelFor b.opts.broadcastChannel (mapToArray (env.range 0) b.rooms))
            msg with
        | some err => (false, some err)
        | none => (true, none)),
       b,
       t ++ [⟨broadcastChannelFor b.opts.broadcastChannel (mapToArray (env.range 0) b.rooms),
              msg⟩]⟩) := by
  by_cases hev : event ∈ ReservedEvents
  · exact Or.inl ⟨event ++ " is a reserved event name", by simp [BroadcastOperator.Emit, hev]⟩
  · cases hser : env.msgpackMarshal (broadcastTuple event args b.opts.nsp
        (mapToArray (env.range 0) b.rooms) b.flags (mapToArray (env.range 1) b.exceptRooms)) with
    | ok msg => exact Or.inr ⟨msg, emit_run b env t event args msg hev hser⟩
    | error err =>
      refine Or.inl ⟨err, ?_⟩
      unfold broadcastTuple at hser
      unfold BroadcastOperator.Emit
      simp only [hev, if_false, uid, PacketTypeEvent, List.singleton_append, hser]

theorem socketsJoin_cases (b : BroadcastOperator) (env : Env) (t : Transport)
    (rooms : List String) :
    (∃ err, b.SocketsJoin env t rooms = ⟨some err, b, t⟩) ∨
    (∃ request, b.SocketsJoin env t rooms =
      ⟨env.publishErr t b.opts.requestChannel request, b,
       t ++ [⟨b.opts.requestChannel, request⟩]⟩) := by
  unfold BroadcastOperator.SocketsJoin
  split
  · exact Or.inl ⟨_, rfl⟩
  · exact Or.inr ⟨_, rfl⟩

theorem socketsLeave_cases (b : BroadcastOperator) (env : Env) (t : Transport)
    (rooms : List String) :
    (∃ err, b.SocketsLeave env t rooms = ⟨some err, b, t⟩) ∨
    (∃ request, b.SocketsLeave env t rooms =
      ⟨env.publishErr t b.opts.requestChannel request, b,
       t ++ [⟨b.opts.requestChannel, request⟩]⟩) := by
  unfold BroadcastOperator.SocketsLeave
  split
  · exact Or.inl ⟨_, rfl⟩
  · exact Or.inr ⟨_, rfl⟩

theorem disconnectSockets_cases (b : BroadcastOperator) (env : Env) (t : Transport)
    (close : Bool) :
    (∃ err, b.DisconnectSockets env t close = ⟨some err, b, t⟩) ∨
    (∃ request, b.DisconnectSockets env t close =
      ⟨env.publishErr t b.opts.requestChannel request, b,
       t ++ [⟨b.opts.requestChannel, request⟩]⟩) := by
  unfold BroadcastOperator.DisconnectSockets
  split
  · exact Or.inl ⟨_, rfl⟩
  · exact Or.inr ⟨_, rfl⟩

theorem serverSideEmit_cases (b : BroadcastOperator) (env : Env) (t : Transport)
    (args : List Value) :
    (∃ err, b.ServerSideEmit env t args = ⟨some err, b, t⟩) ∨
    (∃ request, b.ServerSideEmit env t args =
      ⟨env.publishErr t b.opts.requestChannel request, b,
       t ++ [⟨b.opts.requestChannel, request⟩]⟩) := by
  unfold BroadcastOperator.ServerSideEmit
  split
  · exact Or.inl ⟨_, rfl⟩
  · exact Or.inr ⟨_, rfl⟩

/-- C11. `SocketsLeave(rs...)` is `SocketsJoin(rs...)` with the type 3 in
place of 2: when the serializer accepts both envelopes, each operation makes
one publish call on the same request channel, `SocketsJoin` with the envelope
`{type: 2, opts: {rooms, except}, rooms: rs}` and `SocketsLeave` with
`{type: 3, opts: {rooms, except}, rooms: rs}` for the same `rooms`, `except`
and `rs`; each returns the answer of its call. -/
theorem socketsLeave_symmetric (b : BroadcastOperator) (env : Env) (t : Transport)
    (rs : List String) (rooms exceptRooms : List String) (join leave : Bytes)
    (hrooms : rooms = mapToArray (env.range 0) b.rooms)
    (hexcept : exceptRooms = mapToArray (env.range 1) b.exceptRooms)
    (hjoin : env.jsonMarshal (.obj
      [("type", .int 2),
       ("opts", .obj [("rooms", .strs rooms), ("except", .strs exceptRooms)]),
       ("rooms", .strs rs)]) = .ok join)
    (hleave : env.jsonMarshal (.obj
      [("type", .int 3),
       ("opts", .obj [("rooms", .strs rooms), ("except", .strs exceptRooms)]),
       ("rooms", .strs rs)]) = .ok leave) :
    (b.SocketsJoin env t rs).bus = t ++ [⟨b.opts.requestChannel, join⟩] ∧
    (b.SocketsLeave env t rs).bus = t ++ [⟨b.opts.requestChannel, leave⟩] ∧
    (b.SocketsJoin env t rs).ret = env.publishErr t b.opts.requestChannel join ∧
    (b.SocketsLeave env t rs).ret = env.publishErr t b.opts.requestChannel leave ∧
    rooms.Perm b.rooms.keys ∧ exceptRooms.Perm b.exceptRooms.keys := by
  subst hrooms hexcept
  refine ⟨?_, ?_, ?_, ?_, mapToArray_perm _ _, mapToArray_perm _ _⟩
  · simp [BroadcastOperator.SocketsJoin, RequestTypeRemoteJoin, hjoin, Publish]
  · simp [BroadcastOperator.SocketsLeave, RequestTypeRemoteLeave, hleave, Publish]
  · simp [BroadcastOperator.SocketsJoin, RequestTypeRemoteJoin, hjoin, Publish]
  · simp [BroadcastOperator.SocketsLeave, RequestTypeRemoteLeave, hleave, Publish]

/-- On the default session, `to("x").socketsJoin("a")` and
`to("x").socketsLeave("a")` publish on `socket.io-request#/#`, the first a
request of kind 2 and the second one of kind 3. -/
theorem socketsLeave_symmetric_witness :
    ((defaultEmitter.To ["x"]).SocketsJoin kindEnv [] ["a"]).bus
      = [] ++ [⟨"socket.io-request#/#", [2]⟩] ∧
    ((defaultEmitter.To ["x"]).SocketsLeave kindEnv [] ["a"]).bus
      = [] ++ [⟨"socket.io-request#/#", [3]⟩] :=
  ⟨(socketsLeave_symmetric (defaultEmitter.To ["x"]) kindEnv [] ["a"] ["x"] [] [2] [3]
      (by decide) (by decide) rfl rfl).1,
   (socketsLeave_symmetric (defaultEmitter.To ["x"]) kindEnv [] ["a"] ["x"] [] [2] [3]
      (by decide) (by decide) rfl rfl).2.1⟩

/-- C12. `DisconnectSockets(c)`, when the serializer accepts the envelope
`{type: 4, opts: {rooms, except}, close: c}`, in which `rooms` lists the
builder's target rooms and `except` its excluded rooms, makes exactly one
publish call, on the request channel, with that envelope as message, and
returns the answer of that call. -/
theorem disconnectSockets_request (b : BroadcastOperator) (env : Env) (t : Transport)
    (c : Bool) (rooms exceptRooms : List String) (request : Bytes)
    (hrooms : rooms = mapToArray (env.range 0) b.rooms)
    (hexcept : exceptRooms = mapToArray (env.range 1) b.exceptRooms)
    (hser : env.jsonMarshal (.obj
      [("type", .int 4),
       ("opts", .obj [("rooms", .strs rooms), ("except", .strs exceptRooms)]),
       ("close", .bool c)]) = .ok request) :
    (b.DisconnectSockets env t c).bus = t ++ [⟨b.opts.requestChannel, request⟩] ∧
    (b.DisconnectSockets env t c).ret = env.publishErr t b.opts.requestChannel request ∧
    rooms.Perm b.rooms.keys ∧ exceptRooms.Perm b.exceptRooms.keys := by
  subst hrooms hexcept
  refine ⟨?_, ?_, mapToArray_perm _ _, mapToArray_perm _ _⟩
  · simp [BroadcastOperator.DisconnectSockets, RequestTypeRemoteDisconnect, hser, Publish]
  · simp [BroadcastOperator.DisconnectSockets, RequestTypeRemoteDisconnect, hser, Publish]

/-- On the default session, `to("x").except("y").disconnectSockets(true)`
publishes one request of kind 4 on `socket.io-request#/#`. -/
theorem disconnectSockets_request_witness :
    (((defaultEmitter.To ["x"]).Except ["y"]).DisconnectSockets kindEnv [] true).bus
      = [] ++ [⟨"socket.io-request#/#", [4]⟩] ∧
    (((defaultEmitter.To ["x"]).Except ["y"]).DisconnectSockets kindEnv [] true).ret = none :=
  ⟨(disconnectSockets_request ((defaultEmitter.To ["x"]).Except ["y"]) kindEnv [] true
      ["x"] ["y"] [4] (by decide) (by decide) rfl).1,
   (disconnectSockets_request ((defaultEmitter.To ["x"]).Except ["y"]) kindEnv [] true
      ["x"] ["y"] [4] (by decide) (by decide) rfl).2.1⟩

/-- C13. `ServerSideEmit(args...)`, called on a builder or on the session,
when the serializer accepts the envelope
`{uid: "emitter", type: 6, data: args}`, makes exactly one publish call, on
the request channel, with that envelope as message, and returns the answer of
that call; `data` is `args`, in the order given. -/
theorem serverSideEmit_request (b : BroadcastOperator) (e : Emitter) (env : Env)
    (t : Transport) (args : List Value) (request : Bytes)
    (hser : env.jsonMarshal (.obj
      [("uid", .str "emitter"), ("type", .int 6), ("data", .list args)]) = .ok request) :
    (b.ServerSideEmit env t args).bus = t ++ [⟨b.opts.requestChannel, request⟩] ∧
    (b.ServerSideEmit env t args).ret = env.publishErr t b.opts.requestChannel request ∧
    (e.ServerSideEmit env t args).bus
      = t ++ [⟨e.broadcastOptions.requestChannel, request⟩] ∧
    (e.ServerSideEmit env t args).ret
      = env.publishErr t e.broadcastOptions.requestChannel request := by
  refine ⟨?_, ?_, ?_, ?_⟩ <;>
    simp [Emitter.ServerSideEmit, NewBroadcastOperator, BroadcastOperator.ServerSideEmit,
      RequestTypeServerSideEmit, uid, hser, Publish]

/-- On the default session, `serverSideEmit(1, "two", 3.0)`, from a builder
that targets a room and from the session itself, publishes one request of
kind 6 on `socket.io-request#/#`. -/
theorem serverSideEmit_request_witness :
    ((defaultEmitter.To ["x"]).ServerSideEmit kindEnv [] [.int 1, .str "two", .float 3.0]).bus
      = [] ++ [⟨"socket.io-request#/#", [6]⟩] ∧
    (defaultEmitter.ServerSideEmit kindEnv [] [.int 1, .str "two", .float 3.0]).bus
      = [] ++ [⟨"socket.io-request#/#", [6]⟩] :=
  ⟨(serverSideEmit_request (defaultEmitter.To ["x"]) defaultEmitter kindEnv []
      [.int 1, .str "two", .float 3.0] [6] rfl).1,
   (serverSideEmit_request (defaultEmitter.To ["x"]) defaultEmitter kindEnv []
      [.int 1, .str "two", .float 3.0] [6] rfl).2.2.1⟩

/-! ## Terminal operations leave the builder alone -/

theorem publish_answer_of_bus {ρ : Type} (o : Outcome ρ) (t : Transport) (answer : ρ)
    (channel : String) (message : Bytes) (call : PublishCall)
    (ho : o.bus = t ++ [⟨channel, message⟩] ∧ o.ret = answer)
    (hcall : o.bus = t ++ [call]) : call = ⟨channel, message⟩ := by
  rw [ho.1] at hcall
  have := List.append_cancel_left hcall
  simpa using this.symm

/-- C14. Every terminal operation (`Emit`, `SocketsJoin`, `SocketsLeave`,
`DisconnectSockets`, `ServerSideEmit`) leaves the builder as it was, whatever
its outcome: target set, excluded set, flags and channel configuration after
the call are those before it. And when an operation has made its publish call
and the transport answered with an error, that error is what the operation
returns (with `false` for `Emit`). -/
theorem terminal_operations_frame (b : BroadcastOperator) (env : Env) (t : Transport)
    (event : String) (args : List Value) (rs : List String) (close : Bool) :
    (b.Emit env t event args).b = b ∧
    (b.SocketsJoin env t rs).b = b ∧
    (b.SocketsLeave env t rs).b = b ∧
    (b.DisconnectSockets env t close).b = b ∧
    (b.ServerSideEmit env t args).b = b ∧
    (∀ call err, (b.Emit env t event args).bus = t ++ [call] →
      env.publishErr t call.channel call.message = some err →
      (b.Emit env t event args).ret = (false, some err)) ∧
    (∀ call err, (b.SocketsJoin env t rs).bus = t ++ [call] →
      env.publishErr t call.channel call.message = some err →
      (b.SocketsJoin env t rs).ret = some err) ∧
    (∀ call err, (b.SocketsLeave env t rs).bus = t ++ [call] →
      env.publishErr t call.channel call.message = some err →
      (b.SocketsLeave env t rs).ret = some err) ∧
    (∀ call err, (b.DisconnectSockets env t close).bus = t ++ [call] →
      env.publishErr t call.channel call.message = some err →
      (b.DisconnectSockets env t close).ret = some err) ∧
    (∀ call err, (b.ServerSideEmit env t args).bus = t ++ [call] →
      env.publishErr t call.channel call.message = some err →
      (b.ServerSideEmit env t args).ret = some err) := by
  refine ⟨?_, ?_, ?_, ?_, ?_, ?_, ?_, ?_, ?_, ?_⟩
  · rcases emit_cases b env t event args with ⟨err, h⟩ | ⟨msg, h⟩ <;> rw [h]
  · rcases socketsJoin_cases b env t rs with ⟨err, h⟩ | ⟨msg, h⟩ <;> rw [h]
  · rcases socketsLeave_cases b env t rs with ⟨err, h⟩ | ⟨msg, h⟩ <;> rw [h]
  · rcases disconnectSockets_cases b env t close with ⟨err, h⟩ | ⟨msg, h⟩ <;> rw [h]
  · rcases serverSideEmit_cases b env t args with ⟨err, h⟩ | ⟨msg, h⟩ <;> rw [h]
  · intro call err hbus herr
    rcases emit_cases b env t event args with ⟨e, h⟩ | ⟨msg, h⟩
    · rw [h] at hbus; simp at hbus
    · have hc := publish_answer_of_bus _ t _ _ _ call
        ⟨congrArg Outcome.bus h, congrArg Outcome.ret h⟩ hbus
      subst hc
      rw [h]; simp only at herr ⊢; rw [herr]
  · intro call err hbus herr
    rcases socketsJoin_cases b env t rs with ⟨e, h⟩ | ⟨msg, h⟩
    · rw [h] at hbus; simp at hbus
    · have hc := publish_answer_of_bus _ t _ _ _ call
        ⟨congrArg Outcome.bus h, congrArg Outcome.ret h⟩ hbus
      subst hc
      rw [h]; exact herr
  · intro call err hbus herr
    rcases socketsLeave_cases b env t rs with ⟨e, h⟩ | ⟨msg, h⟩
    · rw [h] at hbus; simp at hbus
    · have hc := publish_answer_of_bus _ t _ _ _ call
        ⟨congrArg Outcome.bus h, congrArg Outcome.ret h⟩ hbus
      subst hc
      rw [h]; exact herr
  · intro call err hbus herr
    rcases disconnectSockets_cases b env t close with ⟨e, h⟩ | ⟨msg, h⟩
    · rw [h] at hbus; simp at hbus
    · have hc := publish_answer_of_bus _ t _ _ _ call
        ⟨congrArg Outcome.bus h, congrArg Outcome.ret h⟩ hbus
      subst hc
      rw [h]; exact herr
  · intro call err hbus herr
    rcases serverSideEmit_cases b env t args with ⟨e, h⟩ | ⟨msg, h⟩
    · rw [h] at hbus; simp at hbus
    · have hc := publish_answer_of_bus _ t _ _ _ call
        ⟨congrArg Outcome.bus h, congrArg Outcome.ret h⟩ hbus
      subst hc
      rw [h]; exact herr

/-- With a server that refuses every publish, `to("x").emit("news")` and
`to("x").socketsJoin("a")` on the default session return the refusal and leave
the builder as it was. -/
theorem terminal_operations_frame_witness :
    ((defaultEmitter.To ["x"]).Emit refusingEnv [] "news" []).b = defaultEmitter.To ["x"] ∧
    ((defaultEmitter.To ["x"]).Emit refusingEnv [] "news" []).ret
      = (false, some "connection refused") ∧
    ((defaultEmitter.To ["x"]).SocketsJoin refusingEnv [] ["a"]).ret
      = some "connection refused" :=
  ⟨(terminal_operations_frame (defaultEmitter.To ["x"]) refusingEnv [] "news" [] ["a"]
      true).1,
   (terminal_operations_frame (defaultEmitter.To ["x"]) refusingEnv [] "news" [] ["a"]
      true).2.2.2.2.2.1 ⟨"socket.io#/#x#", [1]⟩ "connection refused" (by decide) rfl,
   (terminal_operations_frame (defaultEmitter.To ["x"]) refusingEnv [] "news" [] ["a"]
      true).2.2.2.2.2.2.1 ⟨"socket.io-request#/#", [0]⟩ "connection refused" (by decide) rfl⟩

/-! ## The result of `Emit` -/

/-- C15. For a non-reserved event whose tuple the serializer accepts, `Emit`
makes exactly one publish call and returns `(true, nil)` when the transport
answers without error, and `(false, err)` when the transport answers with the
error `err`. Whatever the input, `ok` is `true` exactly when the error is
nil. -/
theorem emit_result (b : BroadcastOperator) (env : Env) (t : Transport) (event : String)
    (args : List Value) :
    (∀ msg, event ∉ ReservedEvents →
      env.msgpackMarshal (broadcastTuple event args b.opts.nsp
        (mapToArray (env.range 0) b.rooms) b.flags (mapToArray (env.range 1) b.exceptRooms))
        = .ok msg →
      ∃ channel, (b.Emit env t event args).bus = t ++ [⟨channel, msg⟩] ∧
        (env.publishErr t channel msg = none → (b.Emit env t event args).ret = (true, none)) ∧
        (∀ err, env.publishErr t channel msg = some err →
          (b.Emit env t event args).ret = (false, some err))) ∧
    ((b.Emit env t event args).ret.1 = true ↔ (b.Emit env t event args).ret.2 = none) := by
  constructor
  · intro msg hev hser
    rw [emit_run b env t event args msg hev hser]
    refine ⟨_, rfl, fun h => ?_, fun err h => ?_⟩
    · simp only; rw [h]
    · simp only; rw [h]
  · rcases emit_cases b env t event args with ⟨err, h⟩ | ⟨msg, h⟩
    · rw [h]; simp
    · rw [h]; simp only; split <;> simp

/-- On the default session, `emit("news", 1)` returns `(true, nil)` after one
publish call when the server accepts it, and `(false, connection refused)`
after one publish call when the server refuses it. -/
theorem emit_result_witness :
    "news" ∉ ReservedEvents ∧
    (∃ channel,
      ((defaultEmitter.To []).Emit quietEnv [] "news" [.int 1]).bus = [] ++ [⟨channel, [2]⟩] ∧
      (quietEnv.publishErr [] channel [2] = none →
        ((defaultEmitter.To []).Emit quietEnv [] "news" [.int 1]).ret = (true, none)) ∧
      (∀ err, quietEnv.publishErr [] channel [2] = some err →
        ((defaultEmitter.To []).Emit quietEnv [] "news" [.int 1]).ret = (false, some err))) ∧
    ((defaultEmitter.To []).Emit refusingEnv [] "news" [.int 1]).ret
      = (false, some "connection refused") :=
  ⟨by decide,
   (emit_result (defaultEmitter.To []) quietEnv [] "news" [.int 1]).1 [2] (by decide) rfl,
   by decide⟩

/-! ## Normalisation of the namespace -/

/-- C16. `NewEmitter` takes a namespace path as it is given: for the options
`{Nsp: "chat"}` the session's namespace is `chat`, which does not start with
`/`, and the channels are `socket.io#chat#` and `socket.io-request#chat#`;
`Of("chat")` on the default session gives the namespace `/chat`. -/
theorem newEmitter_keeps_bare_namespace :
    (NewEmitter ⟨⟨"", "", 0, 0⟩, "", "chat"⟩).broadcastOptions
      = ⟨"chat", "socket.io#chat#", "socket.io-request#chat#"⟩ ∧
    HasPrefix (NewEmitter ⟨⟨"", "", 0, 0⟩, "", "chat"⟩).broadcastOptions.nsp "/" = false ∧
    (defaultEmitter.Of "chat").2.broadcastOptions
      = ⟨"/chat", "socket.io#/chat#", "socket.io-request#/chat#"⟩ := by
  decide

/-! ## Server-side emit ignores the targeting -/

/-- C18. `ServerSideEmit` does not use the targeting state: replacing the
target rooms, the excluded rooms and the flags of a builder by any others
changes neither the publish calls made (channel and payload) nor the value
returned. -/
theorem serverSideEmit_ignores_targeting (b : BroadcastOperator) (rooms exceptRooms : StringSet)
    (flags : BroadcastFlags) (env : Env) (t : Transport) (args : List Value) :
    (({ b with rooms := rooms, exceptRooms := exceptRooms, flags := flags } :
        BroadcastOperator).ServerSideEmit env t args).bus
      = (b.ServerSideEmit env t args).bus ∧
    (({ b with rooms := rooms, exceptRooms := exceptRooms, flags := flags } :
        BroadcastOperator).ServerSideEmit env t args).ret
      = (b.ServerSideEmit env t args).ret := by
  unfold BroadcastOperator.ServerSideEmit
  constructor <;> split <;> rfl

/-! ## Broadcast channels and request channels -/

theorem hash_ne_request (k x y : String) : k ++ ("#" ++ x) ≠ k ++ ("-request#" ++ y) := by
  intro h
  have hd := congrArg String.data h
  simp only [String.data_append] at hd
  have := List.append_cancel_left hd
  simp at this

theorem channels_apart (k n1 n2 : String) :
    k ++ "#" ++ n1 ++ "#" ≠ k ++ "-request#" ++ n2 ++ "#" ∧
    ∀ r, k ++ "#" ++ n1 ++ "#" ++ r ++ "#" ≠ k ++ "-request#" ++ n2 ++ "#" := by
  refine ⟨?_, fun r => ?_⟩
  · simp only [String.append_assoc]
    exact hash_ne_request k _ _
  · simp only [String.append_assoc]
    exact hash_ne_request k _ _

/-- C19. For every key `k`, namespaces `n1`, `n2` and room `r`, the broadcast
channel `k#n1#` and the single-room channel `k#n1#r#` differ from the request
channel `k-request#n2#`; so do the channels that `NewEmitter` derives for the
same key (defaults included), and every publish call that `Emit` makes on a
builder of a session with key `k` is on a channel that is not the request
channel of any session with key `k`. -/
theorem broadcast_never_on_request_channel (ro1 ro2 : RedisOptions) (k n1 n2 r : String) :
    k ++ "#" ++ n1 ++ "#" ≠ k ++ "-request#" ++ n2 ++ "#" ∧
    k ++ "#" ++ n1 ++ "#" ++ r ++ "#" ≠ k ++ "-request#" ++ n2 ++ "#" ∧
    (NewEmitter ⟨ro1, k, n1⟩).broadcastOptions.broadcastChannel
      ≠ (NewEmitter ⟨ro2, k, n2⟩).broadcastOptions.requestChannel ∧
    (NewEmitter ⟨ro1, k, n1⟩).broadcastOptions.broadcastChannel ++ r ++ "#"
      ≠ (NewEmitter ⟨ro2, k, n2⟩).broadcastOptions.requestChannel ∧
    (∀ (b : BroadcastOperator) (env : Env) (t : Transport) (event : String)
        (args : List Value) (call : PublishCall),
      b.opts = (NewEmitter ⟨ro1, k, n1⟩).broadcastOptions →
      (b.Emit env t event args).bus = t ++ [call] →
      call.channel ≠ (NewEmitter ⟨ro2, k, n2⟩).broadcastOptions.requestChannel) := by
  have hA := channels_apart k n1 n2
  have hN : (NewEmitter ⟨ro1, k, n1⟩).broadcastOptions.broadcastChannel
        ≠ (NewEmitter ⟨ro2, k, n2⟩).broadcastOptions.requestChannel ∧
      ∀ r, (NewEmitter ⟨ro1, k, n1⟩).broadcastOptions.broadcastChannel ++ r ++ "#"
        ≠ (NewEmitter ⟨ro2, k, n2⟩).broadcastOptions.requestChannel := by
    rw [newEmitter_broadcastOptions, newEmitter_broadcastOptions]
    exact channels_apart _ _ _
  refine ⟨hA.1, hA.2 r, hN.1, hN.2 r, ?_⟩
  intro b env t event args call hopts hbus
  rcases emit_cases b env t event args with ⟨e, h⟩ | ⟨msg, h⟩
  · rw [h] at hbus; simp at hbus
  · have hc := publish_answer_of_bus _ t _ _ _ call
      ⟨congrArg Outcome.bus h, congrArg Outcome.ret h⟩ hbus
    subst hc
    rw [hopts]
    show broadcastChannelFor _ (mapToArray (env.range 0) b.rooms) ≠ _
    generalize mapToArray (env.range 0) b.rooms = rooms
    match rooms with
    | [] => exact hN.1
    | [x] => exact hN.2 x
    | _ :: _ :: _ => exact hN.1

/-- On the session with key `app` and namespace `/a`, `to("-request#/a")`
followed by `emit` publishes on `app#/a#-request#/a#`, which is not the
request channel `app-request#/a#`. -/
theorem broadcast_never_on_request_channel_witness :
    (((NewEmitter ⟨⟨"", "", 0, 0⟩, "app", "/a"⟩).To ["-request#/a"]).Emit quietEnv [] "news"
        []).bus = [] ++ [⟨"app#/a#-request#/a#", [1]⟩] ∧
    "app#/a#-request#/a#"
      ≠ (NewEmitter ⟨⟨"", "", 0, 0⟩, "app", "/a"⟩).broadcastOptions.requestChannel :=
  ⟨by decide,
   (broadcast_never_on_request_channel ⟨"", "", 0, 0⟩ ⟨"", "", 0, 0⟩ "app" "/a" "/a" "x").2.2.2.2
      ((NewEmitter ⟨⟨"", "", 0, 0⟩, "app", "/a"⟩).To ["-request#/a"]) quietEnv [] "news" []
      ⟨"app#/a#-request#/a#", [1]⟩ (by decide) (by decide)⟩

/-! ## What the channel of `Emit` depends on -/

theorem broadcastChannelFor_perm (broadcastChannel : String) (l1 l2 : List String)
    (h : l1.Perm l2) : broadcastChannelFor broadcastChannel l1
      = broadcastChannelFor broadcastChannel l2 := by
  match l1, l2, h with
  | [], l2, h => rw [List.nil_perm.mp h]
  | [x], l2, h => rw [List.singleton_perm.mp h]
  | x :: y :: l, l2, h =>
    have hl := h.length_eq
    match l2, hl with
    | a :: c :: l', _ => simp [broadcastChannelFor]

theorem emit_channel_of_bus (b : BroadcastOperator) (env : Env) (t : Transport)
    (event : String) (args : List Value) (call : PublishCall)
    (hbus : (b.Emit env t event args).bus = t ++ [call]) :
    call.channel
      = broadcastChannelFor b.opts.broadcastChannel (mapToArray (env.range 0) b.rooms) := by
  rcases emit_cases b env t event args with ⟨e, h⟩ | ⟨msg, h⟩
  · rw [h] at hbus; simp at hbus
  · have hc := publish_answer_of_bus _ t _ _ _ call
      ⟨congrArg Outcome.bus h, congrArg Outcome.ret h⟩ hbus
    rw [hc]

/-- C20. The channel on which `Emit` publishes depends on the broadcast channel
and the set of target rooms only: two builders with the same broadcast channel
and the same set of target rooms publish on the same channel, whatever their
excluded rooms and flags, the events, the arguments, the serializers, the
orders of iteration and the buses. Two sequences of `To` calls on the same
builder that name the same rooms give the same set of target rooms. -/
theorem emit_channel_depends_on_room_set (b1 b2 : BroadcastOperator) (env1 env2 : Env)
    (t1 t2 : Transport) (event1 event2 : String) (args1 args2 : List Value)
    (call1 call2 : PublishCall)
    (hchannel : b1.opts.broadcastChannel = b2.opts.broadcastChannel)
    (hrooms : ∀ r, r ∈ b1.rooms.keys ↔ r ∈ b2.rooms.keys)
    (h1 : (b1.Emit env1 t1 event1 args1).bus = t1 ++ [call1])
    (h2 : (b2.Emit env2 t2 event2 args2).bus = t2 ++ [call2]) :
    call1.channel = call2.channel ∧
    (∀ (b : BroadcastOperator) (calls1 calls2 : List (List String)),
      (∀ r, (∃ rooms ∈ calls1, r ∈ rooms) ↔ (∃ rooms ∈ calls2, r ∈ rooms)) →
      ∀ r, r ∈ (calls1.foldl BroadcastOperator.To b).rooms.keys
        ↔ r ∈ (calls2.foldl BroadcastOperator.To b).rooms.keys) := by
  constructor
  · rw [emit_channel_of_bus b1 env1 t1 event1 args1 call1 h1,
      emit_channel_of_bus b2 env2 t2 event2 args2 call2 h2, hchannel]
    apply broadcastChannelFor_perm
    have hp : b1.rooms.keys.Perm b2.rooms.keys :=
      (List.perm_ext_iff_of_nodup b1.rooms.nodup b2.rooms.nodup).mpr hrooms
    exact ((mapToArray_perm _ _).trans hp).trans (mapToArray_perm _ _).symm
  · intro b calls1 calls2 hsame r
    rw [to_calls_mem, to_calls_mem, hsame r]

/-- On the default session, `to("r1","r1").except("r2").emit("a")` and
`to("r1").volatile().emit("b", 1)` both publish on `socket.io#/#r1#`. -/
theorem emit_channel_depends_on_room_set_witness :
    ((defaultEmitter.To ["r1", "r1"]).Except ["r2"]).opts.broadcastChannel
      = ((defaultEmitter.To ["r1"]).Volatile).opts.broadcastChannel ∧
    (∀ r, r ∈ ((defaultEmitter.To ["r1", "r1"]).Except ["r2"]).rooms.keys
      ↔ r ∈ ((defaultEmitter.To ["r1"]).Volatile).rooms.keys) ∧
    (((defaultEmitter.To ["r1", "r1"]).Except ["r2"]).Emit quietEnv [] "a" []).bus
      = [] ++ [⟨"socket.io#/#r1#", [1]⟩] ∧
    (((defaultEmitter.To ["r1"]).Volatile).Emit refusingEnv [⟨"c", []⟩] "b" [.int 1]).bus
      = [⟨"c", []⟩] ++ [⟨"socket.io#/#r1#", [2]⟩] ∧
    (⟨"socket.io#/#r1#", [1]⟩ : PublishCall).channel
      = (⟨"socket.io#/#r1#", [2]⟩ : PublishCall).channel :=
  ⟨by decide, fun _ => Iff.rfl, by decide, by decide,
   (emit_channel_depends_on_room_set ((defaultEmitter.To ["r1", "r1"]).Except ["r2"])
      ((defaultEmitter.To ["r1"]).Volatile) quietEnv refusingEnv [] [⟨"c", []⟩] "a" "b" []
      [.int 1] ⟨"socket.io#/#r1#", [1]⟩ ⟨"socket.io#/#r1#", [2]⟩ (by decide)
      (fun _ => Iff.rfl) (by decide) (by decide)).1⟩

/-! ## Independent chains -/

theorem emitter_call_eq (e : Emitter) (c : Call) :
    e.call c = (NewBroadcastOperator e.redisClient e.broadcastOptions).call c := by
  cases c <;> rfl

theorem sessionCall_eq (h : Heap) (e : Emitter) (c : Call) :
    h.sessionCall e c = (h ++ [e.call c], h.length) := by
  simp [Heap.sessionCall, Heap.alloc, Heap.builderCall, emitter_call_eq]

theorem builderCall_get_ne (h : Heap) (p q : Nat) (c : Call) (hne : p ≠ q) :
    (h.builderCall p c)[q]? = h[q]? := by
  unfold Heap.builderCall
  split
  · exact List.getElem?_set_ne hne
  · rfl

theorem builderCall_get (h : Heap) (p : Nat) (c : Call) :
    (h.builderCall p c)[p]? = (h[p]?).map (fun b => b.call c) := by
  unfold Heap.builderCall
  split
  · next b hb =>
    rw [hb, List.getElem?_set_self' ]
    simp [hb]
  · next hb => simp [hb]

theorem chain_get_ne (calls : List Call) (h : Heap) (p q : Nat) (hne : p ≠ q) :
    (h.chain p calls)[q]? = h[q]? := by
  unfold Heap.chain
  induction calls generalizing h with
  | nil => rfl
  | cons c cs ih => rw [List.foldl_cons, ih, builderCall_get_ne h p q c hne]

theorem chain_get (calls : List Call) (h : Heap) (p : Nat) :
    (h.chain p calls)[p]? = (h[p]?).map (fun b => calls.foldl BroadcastOperator.call b) := by
  unfold Heap.chain
  induction calls generalizing h with
  | nil => simp
  | cons c cs ih =>
    rw [List.foldl_cons, ih, builderCall_get]
    cases h[p]? <;> simp

theorem builderCall_length (h : Heap) (p : Nat) (c : Call) :
    (h.builderCall p c).length = h.length := by
  unfold Heap.builderCall
  split <;> simp

theorem chain_length (calls : List Call) (h : Heap) (p : Nat) :
    (h.chain p calls).length = h.length := by
  unfold Heap.chain
  induction calls generalizing h with
  | nil => rfl
  | cons c cs ih => rw [List.foldl_cons, ih, builderCall_length]

theorem session_to_fresh (e : Emitter) (rooms : List String) :
    (∀ r, r ∈ (e.To rooms).rooms.keys ↔ r ∈ rooms) ∧
    (e.To rooms).exceptRooms.keys = [] ∧
    (e.To rooms).flags = ⟨false, false⟩ ∧
    (e.To rooms).opts = e.broadcastOptions := by
  unfold Emitter.To
  refine ⟨fun r => ?_, ?_, ?_, ?_⟩
  · rw [to_rooms_mem]; simp [NewBroadcastOperator, StringSet.empty]
  · rw [(to_frame _ _).1]; rfl
  · rw [(to_frame _ _).2.1]; rfl
  · rw [(to_frame _ _).2.2.1]; rfl

/-- C17. Every targeting or flag call on a session allocates a new builder and
works on it alone. After a first session call `c1` (builder at `p`), any chain
of calls on that builder, and a second session call `c2` (builder at `q`):
`q` is not `p`; the builder at `q` is the fresh builder after `c2` alone, so
for `c2 = To(b...)` its target set is exactly the rooms of `b`, without
repetition, its excluded set is empty and its flags are `{false, false}`; the
builder at `p` is as the first chain left it; and a further chain of calls on
either builder leaves the other as it is. -/
theorem session_calls_independent (h : Heap) (e : Emitter) (c1 c2 : Call)
    (chain1 chain2 chain3 : List Call) (b : List String) :
    (((h.sessionCall e c1).1.chain (h.sessionCall e c1).2 chain1).sessionCall e c2).2
      ≠ (h.sessionCall e c1).2 ∧
    (((h.sessionCall e c1).1.chain (h.sessionCall e c1).2 chain1).sessionCall e c2).1[
        (((h.sessionCall e c1).1.chain (h.sessionCall e c1).2 chain1).sessionCall e c2).2]?
      = some ((NewBroadcastOperator e.redisClient e.broadcastOptions).call c2) ∧
    ((NewBroadcastOperator e.redisClient e.broadcastOptions).call (.To b) = e.To b ∧
      (∀ r, r ∈ (e.To b).rooms.keys ↔ r ∈ b) ∧ (e.To b).rooms.keys.Nodup ∧
      (e.To b).exceptRooms.keys = [] ∧ (e.To b).flags = ⟨false, false⟩) ∧
    (((h.sessionCall e c1).1.chain (h.sessionCall e c1).2 chain1).sessionCall e c2).1[
        (h.sessionCall e c1).2]?
      = some (chain1.foldl BroadcastOperator.call
          ((NewBroadcastOperator e.redisClient e.broadcastOptions).call c1)) ∧
    ((((h.sessionCall e c1).1.chain (h.sessionCall e c1).2 chain1).sessionCall e c2).1.chain
        (((h.sessionCall e c1).1.chain (h.sessionCall e c1).2 chain1).sessionCall e c2).2
        chain2)[(h.sessionCall e c1).2]?
      = some (chain1.foldl BroadcastOperator.call
          ((NewBroadcastOperator e.redisClient e.broadcastOptions).call c1)) ∧
    ((((h.sessionCall e c1).1.chain (h.sessionCall e c1).2 chain1).sessionCall e c2).1.chain
        (h.sessionCall e c1).2 chain3)[
        (((h.sessionCall e c1).1.chain (h.sessionCall e c1).2 chain1).sessionCall e c2).2]?
      = some ((NewBroadcastOperator e.redisClient e.broadcastOptions).call c2) := by
  have hp : (h.sessionCall e c1).2 = h.length := by rw [sessionCall_eq]
  have h1 : (h.sessionCall e c1).1 = h ++ [e.call c1] := by rw [sessionCall_eq]
  rw [hp, h1]
  generalize hh2 : (h ++ [e.call c1]).chain h.length chain1 = heap2
  have hlen2 : heap2.length = h.length + 1 := by
    rw [← hh2, chain_length]; simp
  have hq : (heap2.sessionCall e c2).2 = h.length + 1 := by rw [sessionCall_eq, hlen2]
  have h3 : (heap2.sessionCall e c2).1 = heap2 ++ [e.call c2] := by rw [sessionCall_eq]
  have hne : h.length + 1 ≠ h.length := by omega
  have hp2 : heap2[h.length]?
      = some (chain1.foldl BroadcastOperator.call
          ((NewBroadcastOperator e.redisClient e.broadcastOptions).call c1)) := by
    rw [← hh2, chain_get, List.getElem?_concat_length, emitter_call_eq]; rfl
  have hq3 : (heap2 ++ [e.call c2])[h.length + 1]?
      = some ((NewBroadcastOperator e.redisClient e.broadcastOptions).call c2) := by
    rw [← hlen2, List.getElem?_concat_length, emitter_call_eq]
  have hp3 : (heap2 ++ [e.call c2])[h.length]? = heap2[h.length]? :=
    List.getElem?_append_left (by omega)
  rw [hq, h3]
  refine ⟨hne, hq3, ⟨rfl, (session_to_fresh e b).1, StringSet.nodup _,
    (session_to_fresh e b).2.1, (session_to_fresh e b).2.2.1⟩, ?_, ?_, ?_⟩
  · rw [hp3, hp2]
  · rw [chain_get_ne chain2 _ _ _ hne, hp3, hp2]
  · rw [chain_get_ne chain3 _ _ _ (Ne.symm hne), hq3]

/-! ## The flags on the wire -/

theorem wire_broadcastTuple (event : String) (args : List Value) (nsp : String)
    (rooms : List String) (flags : BroadcastFlags) (exceptRooms : List String) :
    (broadcastTuple event args nsp rooms flags exceptRooms).wire
      = .list [.str "emitter",
          .obj [("type", .int 2), ("data", .list ([.str event] ++ Value.wireList args)),
                ("nsp", .str nsp)],
          .obj [("rooms", .strs rooms), ("flags", .obj []), ("except", .strs exceptRooms)]] := by
  simp [broadcastTuple, Value.wire, Value.wireList, Value.wireFields, BroadcastFlags.fields,
    exported]

/-- C7. With a serializer that writes a struct by its exported fields, the
message `Emit` publishes for a non-reserved event is the encoding of the tuple
`["emitter", {type: 2, data: [event] ++ args, nsp}, {rooms, flags: {}, except}]`:
the `flags` entry is the empty map, whatever the flags of the builder, because
both fields of `BroadcastFlags` are unexported. -/
theorem emit_publishes_empty_flags (enc : Value → Except GoError Bytes) (env : Env)
    (b : BroadcastOperator) (t : Transport) (event : String) (args : List Value)
    (rooms exceptRooms : List String) (msg : Bytes)
    (hev : event ∉ ReservedEvents)
    (hrooms : rooms = mapToArray (env.range 0) b.rooms)
    (hexcept : exceptRooms = mapToArray (env.range 1) b.exceptRooms)
    (hser : enc (.list [.str "emitter",
        .obj [("type", .int 2), ("data", .list ([.str event] ++ Value.wireList args)),
              ("nsp", .str b.opts.nsp)],
        .obj [("rooms", .strs rooms), ("flags", .obj []), ("except", .strs exceptRooms)]])
      = .ok msg) :
    ∃ channel, (b.Emit (env.reflecting enc) t event args).bus = t ++ [⟨channel, msg⟩] := by
  subst hrooms hexcept
  have h : (env.reflecting enc).msgpackMarshal (broadcastTuple event args b.opts.nsp
      (mapToArray ((env.reflecting enc).range 0) b.rooms) b.flags
      (mapToArray ((env.reflecting enc).range 1) b.exceptRooms)) = .ok msg := by
    show enc (Value.wire _) = _
    rw [wire_broadcastTuple]
    exact hser
  exact ⟨_, by rw [emit_run b (env.reflecting enc) t event args msg hev h]⟩

/-- On the default session, `to("r1").except("r2").volatile().emit("news", 1, "x")`
publishes a message whose `flags` entry is a map without entries. -/
theorem emit_publishes_empty_flags_witness :
    (((defaultEmitter.To ["r1"]).Except ["r2"]).Volatile).flags = ⟨true, false⟩ ∧
    ∃ channel,
      ((((defaultEmitter.To ["r1"]).Except ["r2"]).Volatile).Emit
        (quietEnv.reflecting flagsMarshal) [] "news" [.int 1, .str "x"]).bus
        = [] ++ [⟨channel, [2, 0]⟩] :=
  ⟨by decide,
   emit_publishes_empty_flags flagsMarshal quietEnv
     (((defaultEmitter.To ["r1"]).Except ["r2"]).Volatile) [] "news" [.int 1, .str "x"]
     ["r1"] ["r2"] [2, 0] (by decide) (by decide) (by decide) rfl⟩

/-- C9. With a serializer that writes a struct by its exported fields, the
flags of a builder never reach the bus: replacing the flags of a builder by any
others changes neither the publish calls of `Emit` nor the value it returns.
On the default session, `volatile().compress(true).emit("news", 1)` and
`emit("news", 1)` on a fresh builder publish the same message, whose `flags`
entry is a map without entries, although the tuples handed to the serializer
hold the structs `{true, true}` and `{false, false}`. -/
theorem flags_never_published (enc : Value → Except GoError Bytes) (env : Env)
    (b : BroadcastOperator) (flags : BroadcastFlags) (t : Transport) (event : String)
    (args : List Value) :
    (({ b with flags := flags } : BroadcastOperator).Emit (env.reflecting enc) t event args).bus
      = (b.Emit (env.reflecting enc) t event args).bus ∧
    (({ b with flags := flags } : BroadcastOperator).Emit (env.reflecting enc) t event args).ret
      = (b.Emit (env.reflecting enc) t event args).ret ∧
    ((defaultEmitter.Volatile.Compress true).Emit (quietEnv.reflecting flagsMarshal) []
        "news" [.int 1]).bus = [⟨"socket.io#/#", [2, 0]⟩] ∧
    ((NewBroadcastOperator defaultEmitter.redisClient defaultEmitter.broadcastOptions).Emit
        (quietEnv.reflecting flagsMarshal) [] "news" [.int 1]).bus
      = [⟨"socket.io#/#", [2, 0]⟩] ∧
    flagsMarshal (broadcastTuple "news" [.int 1] "/" []
        (defaultEmitter.Volatile.Compress true).flags []) = .ok [1, 1, 1] ∧
    flagsMarshal (broadcastTuple "news" [.int 1] "/" []
        (NewBroadcastOperator defaultEmitter.redisClient defaultEmitter.broadcastOptions).flags
        []) = .ok [1, 0, 0] := by
  have hw : ∀ f : BroadcastFlags,
      Value.wire (.list [.str "emitter",
        .obj [("type", .int 2), ("data", .list (.str event :: args)), ("nsp", .str b.opts.nsp)],
        .obj [("rooms", .strs (mapToArray (env.range 0) b.rooms)), ("flags", .flags f),
              ("except", .strs (mapToArray (env.range 1) b.exceptRooms))]])
      = (broadcastTuple event args b.opts.nsp (mapToArray (env.range 0) b.rooms) b.flags
          (mapToArray (env.range 1) b.exceptRooms)).wire := by
    intro f
    rw [wire_broadcastTuple]
    simp [Value.wire, Value.wireList, Value.wireFields, BroadcastFlags.fields, exported]
  have hrun : ∀ f : BroadcastFlags,
      (({ b with flags := f } : BroadcastOperator).Emit (env.reflecting enc) t event args).bus
          = (b.Emit (env.reflecting enc) t event args).bus ∧
      (({ b with flags := f } : BroadcastOperator).Emit (env.reflecting enc) t event args).ret
          = (b.Emit (env.reflecting enc) t event args).ret := by
    intro f
    unfold BroadcastOperator.Emit
    by_cases hev : event ∈ ReservedEvents
    · simp [hev]
    · simp only [hev, if_false, uid, PacketTypeEvent, List.singleton_append, Env.reflecting,
        hw f, hw b.flags]
      constructor <;> split <;> try rfl
      all_goals
        simp only [Publish]
        generalize env.publishErr t _ _ = answer
        cases answer <;> rfl
  exact ⟨(hrun flags).1, (hrun flags).2, by decide, by decide, rfl, rfl⟩

end RedisEmitter
